import Mathlib

/-!
# ProSystem front end for the ODROID-GO Advance (`src/main.c`)

A shallow embedding of the front end: the RGB565 palette converter
(`display_ResetPalette16`), the accumulator resampler (`sound_Resample`), the input, video and
audio sections of `game_step`, the stores of `game_init` into `keyboard_data`, and the main loop
of `main` as a step function over a log of the calls it makes.

Conventions of the embedding.

* A C array or pointer target is a function from cell offset to cell value; a store is
  `Function.update`.  Cells of `uint8_t` arrays hold values below `256`.
* `unsigned`/`uintN_t` arithmetic is arithmetic on `Nat` with an explicit `% 2 ^ N` at every
  store into an `N`-bit cell.
* The resampler is given twice.  `resampleStep32`, `resampleLoop32` and `sound_Resample32` carry
  the `int` locals `max` and `measurement` as 32-bit two's-complement integers (`wrapInt32`).
  `resampleStep`, `resampleLoop` and `sound_Resample` are the same loop read over the integers;
  the two agree when `max + SOUND_FREQUENCY < 2^31` (`sound_Resample32_eq`).  The counters
  `sourceIndex` and `targetIndex`, which start at `0` and are only incremented, are `Nat`:
  `targetIndex` never passes `length`, and `SOUND_FREQUENCY * sourceIndex < max * length`
  once `sourceIndex` has been incremented (`sound_Resample_read_bound`).
* In the PCM conversion the signed operands are carried as their two's-complement bit patterns.
* A `while` loop takes a fuel argument counting loop-head tests and returns `none` when the
  fuel is used up before the loop exits; `for` loops with a known trip count are folds over
  `List.range`.
* Globals that live in other translation units (`palette_data`, `prosystem_frequency`,
  `prosystem_scanlines`, `maria_surface`, `tia_buffer`, ...) are parameters.
-/

namespace ProSystemGo2

/-! ## Constants -/

/-- The `#define SOUND_FREQUENCY 48000`. -/
def SOUND_FREQUENCY : Nat := 48000

/-- The `#define VIDEO_WIDTH 320`. -/
def VIDEO_WIDTH : Nat := 320

/-- The `#define VIDEO_HEIGHT 292`. -/
def VIDEO_HEIGHT : Nat := 292

/-! ## Palette conversion (`display_ResetPalette16`) -/

/-- The body of the palette loop: `((r << 8) & 0xf800) | ((g << 3) & 0x07e0) | (b >> 3)`,
computed in `int` on zero-extended bytes and stored into a `uint16_t`. -/
def rgb565 (r g b : Nat) : Nat :=
  ((((r <<< 8) &&& 0xf800) ||| ((g <<< 3) &&& 0x07e0)) ||| (b >>> 3)) % 2 ^ 16

/-- One iteration of the palette loop: reads the byte triple of `index` and stores the packed
colour in `display_palette16[index]`. -/
def paletteStep (paldata : Nat → Nat) (display_palette16 : Nat → Nat) (index : Nat) : Nat → Nat :=
  let r := paldata (index * 3 + 0)
  let g := paldata (index * 3 + 1)
  let b := paldata (index * 3 + 2)
  Function.update display_palette16 index (rgb565 r g b)

/-- The function `display_ResetPalette16`: `for(index = 0; index < 256; index++)` over the table
`palette_data`, starting from the current contents of `display_palette16`. -/
def display_ResetPalette16 (palette_data : Nat → Nat) (display_palette16 : Nat → Nat) :
    Nat → Nat :=
  (List.range 256).foldl (paletteStep palette_data) display_palette16

/-! ## Resampler (`sound_Resample`) -/

/-- The local variables of `sound_Resample` together with the `target` array.  The field `stores`
is a trace: one pair `(targetIndex, sourceIndex)` per executed `target[targetIndex++] =
source[sourceIndex]`, oldest first. -/
structure ResampleState where
  measurement : Int
  sourceIndex : Nat
  targetIndex : Nat
  target : Nat → Nat
  stores : List (Nat × Nat)

/-- The value of the local `max`, `(prosystem_frequency * prosystem_scanlines) << 1`, over the
integers; `resampleMax32` is the value as a 32-bit `int`. -/
def resampleMax (prosystem_frequency prosystem_scanlines : Nat) : Int :=
  (((prosystem_frequency * prosystem_scanlines) <<< 1 : Nat) : Int)

/-- The state at the first loop-head test: `measurement = SOUND_FREQUENCY`, both indices `0`. -/
def resampleInit (target : Nat → Nat) : ResampleState :=
  { measurement := SOUND_FREQUENCY, sourceIndex := 0, targetIndex := 0, target := target,
    stores := [] }

/-- The body of the `while` loop of `sound_Resample`, with `measurement` read over the
integers; `resampleStep32` is the body on the 32-bit `int`. -/
def resampleStep (max : Int) (source : Nat → Nat) (s : ResampleState) : ResampleState :=
  if s.measurement ≥ max then
    { s with
      target := Function.update s.target s.targetIndex (source s.sourceIndex)
      targetIndex := s.targetIndex + 1
      measurement := s.measurement - max
      stores := s.stores ++ [(s.targetIndex, s.sourceIndex)] }
  else
    { s with
      sourceIndex := s.sourceIndex + 1
      measurement := s.measurement + SOUND_FREQUENCY }

/-- The loop `while(targetIndex < length) { ... }` over the integers; one unit of fuel per
loop-head test. -/
def resampleLoop (max : Int) (source : Nat → Nat) (length : Nat) :
    Nat → ResampleState → Option ResampleState
  | 0, _ => none
  | fuel + 1, s =>
    if s.targetIndex < length then resampleLoop max source length fuel (resampleStep max source s)
    else some s

/-- The function `sound_Resample(source, target, length)` over the integers, with the two
globals it reads; `sound_Resample32` is the function on 32-bit `int` locals. -/
def sound_Resample (prosystem_frequency prosystem_scanlines : Nat) (source target : Nat → Nat)
    (length : Nat) (fuel : Nat) : Option ResampleState :=
  resampleLoop (resampleMax prosystem_frequency prosystem_scanlines) source length fuel
    (resampleInit target)

/-- The source indices read by a run, in order. -/
def ResampleState.reads (s : ResampleState) : List Nat := s.stores.map Prod.snd

/-- The target positions written by a run, in order. -/
def ResampleState.writes (s : ResampleState) : List Nat := s.stores.map Prod.fst

/-! ## `game_step`: input translation -/

/-- A value of C type `float`: a finite value (given exactly, as a rational), an infinity or a
NaN. -/
inductive F32 where
  | finite (q : ℚ)
  | posInf
  | negInf
  | nan

/-- The comparison `a > t` of a `float` with a finite `float` value `t`. -/
def F32.gt (a : F32) (t : ℚ) : Bool :=
  match a with
  | .finite q => decide (q > t)
  | .posInf => true
  | .negInf => false
  | .nan => false

/-- The comparison `a < t` of a `float` with a finite `float` value `t`. -/
def F32.lt (a : F32) (t : ℚ) : Bool :=
  match a with
  | .finite q => decide (q < t)
  | .posInf => false
  | .negInf => true
  | .nan => false

/-- The rationals that are finite values of the IEEE 754 binary32 format: `m * 2 ^ e` with a
24-bit significand and `-149 ≤ e ≤ 104`. -/
def IsBinary32 (q : ℚ) : Prop :=
  ∃ m e : Int, |m| < 2 ^ 24 ∧ -149 ≤ e ∧ e ≤ 104 ∧ q = (m : ℚ) * (2 : ℚ) ^ e

/-- The `float` values proper: a finite one is a binary32 value. -/
def F32.WellFormed : F32 → Prop
  | .finite q => IsBinary32 q
  | _ => True

/-- The constant `TRIM = 0.35f`: the binary32 value nearest to `0.35`, which is
`11744051 / 2 ^ 25`. -/
def TRIM : ℚ := 11744051 / 33554432

/-- Modelled from the spec: the type `go2_dpad_t` of `go2/input.h`, "directional pad (4
booleans)". -/
structure go2_dpad_t where
  up : Bool
  down : Bool
  left : Bool
  right : Bool

/-- Modelled from the spec: the type `go2_thumb_t` of `go2/input.h`, "two analog axes (signed
normalized floats)". -/
structure go2_thumb_t where
  x : F32
  y : F32

/-- Modelled from the spec: the type `go2_gamepad_buttons_t` of `go2/input.h`, "a fixed set of
named buttons"; the fields are the buttons `main.c` reads. -/
structure go2_gamepad_buttons_t where
  a : Bool
  b : Bool
  f1 : Bool
  f3 : Bool
  f4 : Bool
  f6 : Bool

/-- Modelled from the spec: the type `go2_gamepad_state_t` of `go2/input.h`, the physical
controller snapshot. -/
structure go2_gamepad_state_t where
  thumb : go2_thumb_t
  dpad : go2_dpad_t
  buttons : go2_gamepad_buttons_t

/-- The value `0` or `1` a C truth value stores into a `uint8_t` cell. -/
def cell (b : Bool) : Nat := if b then 1 else 0

/-- The nine stores into `keyboard_data` at the head of `game_step`, in source order. -/
def translateInput (gamepadState : go2_gamepad_state_t) (keyboard_data : Nat → Nat) : Nat → Nat :=
  let k := Function.update keyboard_data 0
    (cell (gamepadState.dpad.right || gamepadState.thumb.x.gt TRIM))
  let k := Function.update k 1 (cell (gamepadState.dpad.left || gamepadState.thumb.x.lt (-TRIM)))
  let k := Function.update k 2 (cell (gamepadState.dpad.down || gamepadState.thumb.y.gt TRIM))
  let k := Function.update k 3 (cell (gamepadState.dpad.up || gamepadState.thumb.y.lt (-TRIM)))
  let k := Function.update k 4 (cell gamepadState.buttons.a)
  let k := Function.update k 5 (cell gamepadState.buttons.b)
  let k := Function.update k 13 (cell gamepadState.buttons.f3)
  let k := Function.update k 14 (cell gamepadState.buttons.f4)
  Function.update k 12 (cell gamepadState.buttons.f6)

/-! ## `game_step`: video -/

/-- The variables of the blit loops: the framebuffer contents, the pointer `surface` as an offset
from `framebuffer` and the pointer `buffer` as an offset from `maria_surface`. -/
structure BlitState where
  framebuffer : Nat → Nat
  surface : Nat
  buffer : Int

/-- The inner loop `for(int x = 0; x < videoWidth; ++x) surface[x] = display_palette16[buffer[x]]`. -/
def blitRow (display_palette16 : Nat → Nat) (maria_surface : Int → Nat) (videoWidth : Nat)
    (s : BlitState) : Nat → Nat :=
  (List.range videoWidth).foldl
    (fun fb x => Function.update fb (s.surface + x) (display_palette16 (maria_surface (s.buffer + x))))
    s.framebuffer

/-- One iteration of the outer loop: a row, then `surface += pitch; buffer += videoWidth` with
`pitch = 320`. -/
def blitLine (display_palette16 : Nat → Nat) (maria_surface : Int → Nat) (videoWidth : Nat)
    (s : BlitState) : BlitState :=
  { framebuffer := blitRow display_palette16 maria_surface videoWidth s
    surface := s.surface + 320
    buffer := s.buffer + videoWidth }

/-- The video section of `game_step`.  `videoWidth` and `videoHeight` are the length and height
of `maria_visibleArea`; `visibleTop` and `displayTop` are `maria_visibleArea.top` and
`maria_displayArea.top`. -/
def blit (display_palette16 : Nat → Nat) (maria_surface : Int → Nat) (visibleTop displayTop : Int)
    (videoWidth videoHeight : Nat) (framebuffer : Nat → Nat) : Nat → Nat :=
  ((List.range videoHeight).foldl
    (fun s _ => blitLine display_palette16 maria_surface videoWidth s)
    { framebuffer := framebuffer, surface := 0,
      buffer := (visibleTop - displayTop) * videoWidth }).framebuffer

/-! ## `game_step`: audio -/

/-- The two statements of the mixing loop on one cell: `sample[index] += pokeySample[index]`, a
store into a `uint8_t`, then `sample[index] = sample[index] / 2`. -/
def mixCell (sample pokeySample : Nat → Nat) (index : Nat) : Nat → Nat :=
  let sample := Function.update sample index ((sample index + pokeySample index) % 2 ^ 8)
  Function.update sample index ((sample index / 2) % 2 ^ 8)

/-- The mixing loop `for(index = 0; index < length; index++)`. -/
def mixLoop (sample pokeySample : Nat → Nat) (length : Nat) : Nat → Nat :=
  (List.range length).foldl (fun smp index => mixCell smp pokeySample index) sample

/-- The bit pattern of an `int` value `v ≥ 0` converted to `int16_t`. -/
def int16Bits (v : Nat) : Nat := v % 2 ^ 16

/-- The 32-bit pattern of an `int16_t` with 16-bit pattern `p` promoted to `int`: sign
extension. -/
def promoteInt16 (p : Nat) : Nat := if p < 2 ^ 15 then p else p + (2 ^ 32 - 2 ^ 16)

/-- The body of the PCM loop on one sample: `int16_t sample16 = (sample[i] << 8)` and
`framePtr[i] = (sample16 << 16) | sample16`, the value stored into the `uint32_t` frame. -/
def pcmFrame (s : Nat) : Nat :=
  let sample16 := int16Bits (s <<< 8)
  ((promoteInt16 sample16 <<< 16) % 2 ^ 32) ||| promoteInt16 sample16

/-- The PCM loop `for(int i = 0; i < length; i ++)` over the frames of `sampleBuffer`. -/
def pcmLoop (sample : Nat → Nat) (length : Nat) (framePtr : Nat → Nat) : Nat → Nat :=
  (List.range length).foldl (fun fp i => Function.update fp i (pcmFrame (sample i))) framePtr

/-- The result of the audio section of `game_step`: the working buffer `sample` after resampling
and mixing, the frames of `sampleBuffer`, and the frame count handed to `ProcessAudio`. -/
structure AudioOut where
  sample : Nat → Nat
  frames : Nat → Nat
  frameCount : Nat

/-- The audio section of `game_step`, from `int length = SOUND_FREQUENCY / prosystem_frequency`
to the call of `ProcessAudio`.  The working buffers start zeroed (`memset`). -/
def gameStepAudio (prosystem_frequency prosystem_scanlines : Nat) (cartridge_pokey : Bool)
    (tia_buffer pokey_buffer : Nat → Nat) (sampleBuffer : Nat → Nat) (fuel : Nat) :
    Option AudioOut :=
  let length := SOUND_FREQUENCY / prosystem_frequency
  match sound_Resample prosystem_frequency prosystem_scanlines tia_buffer (fun _ => 0) length
      fuel with
  | none => none
  | some r =>
    let mixed : Option (Nat → Nat) :=
      if cartridge_pokey then
        match sound_Resample prosystem_frequency prosystem_scanlines pokey_buffer (fun _ => 0)
            length fuel with
        | none => none
        | some p => some (mixLoop r.target p.target length)
      else some r.target
    match mixed with
    | none => none
    | some sample =>
      some { sample := sample, frames := pcmLoop sample length sampleBuffer, frameCount := length }


/-- The state at the `j`-th loop-head test of `sound_Resample`, counted from `0`; once the loop
has exited the state no longer changes. -/
def resampleAt (max : Int) (source : Nat → Nat) (length : Nat) :
    Nat → ResampleState → ResampleState
  | 0, s => s
  | j + 1, s =>
    if s.targetIndex < length then resampleAt max source length j (resampleStep max source s)
    else s

/-- The value a C `int` holds after an integer result `x` is stored in it: `x` reduced to the
32-bit two's-complement range `-2^31 .. 2^31 - 1`. -/
def wrapInt32 (x : Int) : Int := (x + 2147483648) % 4294967296 - 2147483648

/-- The value of the local `int max = (prosystem_frequency * prosystem_scanlines) << 1` as a
32-bit `int`. -/
def resampleMax32 (prosystem_frequency prosystem_scanlines : Nat) : Int :=
  wrapInt32 (((prosystem_frequency * prosystem_scanlines) <<< 1 : Nat) : Int)

/-- The body of the `while` loop of `sound_Resample` with `int measurement` a 32-bit
two's-complement integer: `measurement -= max` and `measurement += SOUND_FREQUENCY` wrap
around. -/
def resampleStep32 (max : Int) (source : Nat → Nat) (s : ResampleState) : ResampleState :=
  if s.measurement ≥ max then
    { s with
      target := Function.update s.target s.targetIndex (source s.sourceIndex)
      targetIndex := s.targetIndex + 1
      measurement := wrapInt32 (s.measurement - max)
      stores := s.stores ++ [(s.targetIndex, s.sourceIndex)] }
  else
    { s with
      sourceIndex := s.sourceIndex + 1
      measurement := wrapInt32 (s.measurement + SOUND_FREQUENCY) }

/-- The loop `while(targetIndex < length) { ... }` over the 32-bit body; one unit of fuel per
loop-head test. -/
def resampleLoop32 (max : Int) (source : Nat → Nat) (length : Nat) :
    Nat → ResampleState → Option ResampleState
  | 0, _ => none
  | fuel + 1, s =>
    if s.targetIndex < length then
      resampleLoop32 max source length fuel (resampleStep32 max source s)
    else some s

/-- The state at the `j`-th loop-head test of the 32-bit loop, counted from `0`; once the loop
has exited the state no longer changes. -/
def resampleAt32 (max : Int) (source : Nat → Nat) (length : Nat) :
    Nat → ResampleState → ResampleState
  | 0, s => s
  | j + 1, s =>
    if s.targetIndex < length then resampleAt32 max source length j (resampleStep32 max source s)
    else s

/-- The function `sound_Resample(source, target, length)` with its `int` locals `max` and
`measurement` as 32-bit two's-complement integers, and the two globals it reads. -/
def sound_Resample32 (prosystem_frequency prosystem_scanlines : Nat) (source target : Nat → Nat)
    (length : Nat) (fuel : Nat) : Option ResampleState :=
  resampleLoop32 (resampleMax32 prosystem_frequency prosystem_scanlines) source length fuel
    (resampleInit target)

/-! ## `game_init` and the main loop -/

/-- The statements of `game_init` on `keyboard_data`: the `memset` of its 17 cells, then
`keyboard_data[15] = 1` and `keyboard_data[16] = 0`. -/
def game_init_keyboard (keyboard_data : Nat → Nat) : Nat → Nat :=
  let k := fun i => if i < 17 then 0 else keyboard_data i
  let k := Function.update k 15 1
  Function.update k 16 0

/-- The calls the main loop makes to its collaborators: `go2_input_gamepad_read` (with the value
of `buttons.f1` in the snapshot it returned), `prosystem_ExecuteFrame`, `go2_audio_submit` and
`go2_presenter_post`. -/
inductive Event where
  | poll (f1 : Bool)
  | executeFrame
  | audioSubmit
  | present
  deriving DecidableEq

/-- The state of the main loop: the flag `isRunning`, the global `gamepadState`, the array
`keyboard_data`, the number of snapshots read so far and the events so far, oldest first. -/
structure MainState where
  isRunning : Bool
  gamepadState : go2_gamepad_state_t
  keyboard_data : Nat → Nat
  polled : Nat
  log : List Event

/-- The function `ReadJoysticks`: reads the next snapshot of the input stream into
`gamepadState` and clears `isRunning` when `buttons.f1` is set. -/
def ReadJoysticks (input : Nat → go2_gamepad_state_t) (s : MainState) : MainState :=
  let g := input s.polled
  { s with
    gamepadState := g
    polled := s.polled + 1
    log := s.log ++ [Event.poll g.buttons.f1]
    isRunning := if g.buttons.f1 then false else s.isRunning }

/-- The function `game_step` as the main loop sees it: the input translation, the call of
`prosystem_ExecuteFrame`, and (after the blit and the audio conversion) the call of
`ProcessAudio`, which is `go2_audio_submit`. -/
def game_step (s : MainState) : MainState :=
  { s with
    keyboard_data := translateInput s.gamepadState s.keyboard_data
    log := s.log ++ [Event.executeFrame, Event.audioSubmit] }

/-- The call `go2_presenter_post(...)` that ends the loop body. -/
def presenterPost (s : MainState) : MainState :=
  { s with log := s.log ++ [Event.present] }

/-- The body of `while(isRunning)`: `ReadJoysticks(); game_step(); go2_presenter_post(...)`. -/
def mainBody (input : Nat → go2_gamepad_state_t) (s : MainState) : MainState :=
  presenterPost (game_step (ReadJoysticks input s))

/-- The loop `while(isRunning) { ... }` of `main`; one unit of fuel per test of `isRunning`. -/
def mainLoop (input : Nat → go2_gamepad_state_t) : Nat → MainState → Option MainState
  | 0, _ => none
  | fuel + 1, s => if s.isRunning then mainLoop input fuel (mainBody input s) else some s

/-- The state on entry to the main loop: `isRunning = true`, `keyboard_data` as `game_init`
left it, nothing polled yet. -/
def mainInit (gamepadState : go2_gamepad_state_t) (keyboard_data : Nat → Nat) : MainState :=
  { isRunning := true, gamepadState := gamepadState,
    keyboard_data := game_init_keyboard keyboard_data, polled := 0, log := [] }

/-- The events of one iteration of the main loop in which the polled snapshot has
`buttons.f1 = f1`. -/
def iterationEvents (f1 : Bool) : List Event :=
  [Event.poll f1, Event.executeFrame, Event.audioSubmit, Event.present]

/-- The events of `q` iterations of the main loop in which `buttons.f1` was not set. -/
def runningEvents : Nat → List Event
  | 0 => []
  | q + 1 => iterationEvents false ++ runningEvents q

/-! ## Folds of stores over `List.range` -/

/-- A `for` loop over `0 .. n-1` whose iteration `k` replaces cell `k` by a value computed from
that cell: afterwards cell `i < n` holds the value computed from its initial content and the
other cells are as before. -/
theorem foldl_update_range {α : Type} (v : α → Nat → α) (a0 : Nat → α) (n i : Nat) :
    (List.range n).foldl (fun a k => Function.update a k (v (a k) k)) a0 i =
      if i < n then v (a0 i) i else a0 i := by
  induction n with
  | zero => simp
  | succ n ih =>
    rw [List.range_succ, List.foldl_append]
    simp only [List.foldl_cons, List.foldl_nil]
    by_cases hin : i = n
    · subst hin
      rw [Function.update_same, ih]
      simp
    · rw [Function.update_noteq hin, ih]
      have h1 : (i < n + 1) = (i < n) := by
        apply propext; omega
      simp only [h1]

/-! ## Palette conversion -/

set_option maxRecDepth 100000 in
/-- Masking after the shift keeps the same red bits as masking before it, on bytes. -/
theorem red_mask_shift : ∀ r : Fin 256, ((r.val <<< 8) &&& 0xf800) = ((r.val &&& 0xF8) <<< 8) := by
  decide

set_option maxRecDepth 100000 in
/-- Masking after the shift keeps the same green bits as masking before it, on bytes. -/
theorem green_mask_shift :
    ∀ g : Fin 256, ((g.val <<< 3) &&& 0x07e0) = ((g.val &&& 0xFC) <<< 3) := by
  decide

/-- The packed value fits 16 bits before the store truncates it. -/
theorem rgb565_lt (r g b : Nat) (hb : b < 256) :
    (((r <<< 8) &&& 0xf800) ||| ((g <<< 3) &&& 0x07e0)) ||| (b >>> 3) < 2 ^ 16 := by
  apply Nat.or_lt_two_pow
  · apply Nat.or_lt_two_pow
    · exact Nat.and_lt_two_pow _ (by norm_num)
    · exact Nat.and_lt_two_pow _ (by norm_num)
  · rw [Nat.shiftRight_eq_div_pow]
    have : b / 2 ^ 3 ≤ b := Nat.div_le_self _ _
    omega

/-- The stored colour is the 5-6-5 packing of the byte triple. -/
theorem rgb565_eq (r g b : Nat) (hr : r < 256) (hg : g < 256) (hb : b < 256) :
    rgb565 r g b = (((r &&& 0xF8) <<< 8) ||| ((g &&& 0xFC) <<< 3)) ||| (b >>> 3) := by
  unfold rgb565
  rw [Nat.mod_eq_of_lt (rgb565_lt r g b hb)]
  have h1 := red_mask_shift ⟨r, hr⟩
  have h2 := green_mask_shift ⟨g, hg⟩
  simp only at h1 h2
  rw [h1, h2]

/-- The palette loop leaves in entry `i < 256` the packed colour of triple `i`. -/
theorem display_ResetPalette16_apply (palette_data display_palette16 : Nat → Nat) (i : Nat)
    (hi : i < 256) :
    display_ResetPalette16 palette_data display_palette16 i =
      rgb565 (palette_data (i * 3 + 0)) (palette_data (i * 3 + 1)) (palette_data (i * 3 + 2)) := by
  unfold display_ResetPalette16 paletteStep
  have h := foldl_update_range
    (fun _ k => rgb565 (palette_data (k * 3 + 0)) (palette_data (k * 3 + 1))
      (palette_data (k * 3 + 2))) display_palette16 256 i
  simp only [hi, if_true] at h
  exact h

/-- C1: after `display_ResetPalette16`, for every index `i < 256` whose triple
`(R, G, B) = (palette_data[3i], palette_data[3i+1], palette_data[3i+2])` consists of bytes,
`display_palette16[i]` is `((R & 0xF8) << 8) | ((G & 0xFC) << 3) | (B >> 3)`, a 16-bit value. -/
theorem display_ResetPalette16_rgb565 (palette_data display_palette16 : Nat → Nat)
    (hbytes : ∀ j, j < 768 → palette_data j < 256) (i : Nat) (hi : i < 256) :
    display_ResetPalette16 palette_data display_palette16 i =
        (((palette_data (3 * i) &&& 0xF8) <<< 8) ||| ((palette_data (3 * i + 1) &&& 0xFC) <<< 3))
          ||| (palette_data (3 * i + 2) >>> 3) ∧
      display_ResetPalette16 palette_data display_palette16 i < 2 ^ 16 := by
  have e : i * 3 = 3 * i := Nat.mul_comm _ _
  rw [display_ResetPalette16_apply _ _ i hi, e]
  refine ⟨rgb565_eq _ _ _ (hbytes _ (by omega)) (hbytes _ (by omega)) (hbytes _ (by omega)), ?_⟩
  unfold rgb565
  exact Nat.mod_lt _ (by norm_num)

/-- C1 at a concrete table (every byte `0xFF`) and index `7`: white packs to `0xFFFF`. -/
theorem display_ResetPalette16_rgb565_witness :
    (∀ j, j < 768 → (fun _ : Nat => 255) j < 256) ∧ 7 < 256 ∧
      display_ResetPalette16 (fun _ => 255) (fun _ => 0) 7 = 0xFFFF := by
  refine ⟨fun _ _ => by simp, by decide, ?_⟩
  have h := (display_ResetPalette16_rgb565 (fun _ => 255) (fun _ => 0)
    (fun _ _ => by simp) 7 (by decide)).1
  rw [h]
  decide


/-! ## Resampler: fuel, invariants, termination -/

/-- The two branches of the loop body, as rewriting rules. -/
theorem resampleStep_emit (max : Int) (source : Nat → Nat) (s : ResampleState)
    (h : s.measurement ≥ max) :
    resampleStep max source s =
      { s with
        target := Function.update s.target s.targetIndex (source s.sourceIndex)
        targetIndex := s.targetIndex + 1
        measurement := s.measurement - max
        stores := s.stores ++ [(s.targetIndex, s.sourceIndex)] } := by
  simp [resampleStep, h]

theorem resampleStep_advance (max : Int) (source : Nat → Nat) (s : ResampleState)
    (h : ¬ s.measurement ≥ max) :
    resampleStep max source s =
      { s with
        sourceIndex := s.sourceIndex + 1
        measurement := s.measurement + SOUND_FREQUENCY } := by
  simp [resampleStep, h]

/-- More fuel does not change the result of a run that has returned. -/
theorem resampleLoop_mono (max : Int) (source : Nat → Nat) (length : Nat) :
    ∀ (fuel : Nat) (s r : ResampleState), resampleLoop max source length fuel s = some r →
      ∀ k, resampleLoop max source length (fuel + k) s = some r := by
  intro fuel
  induction fuel with
  | zero =>
    intro s r h
    simp [resampleLoop] at h
  | succ fuel ih =>
    intro s r h k
    have e : fuel + 1 + k = (fuel + k) + 1 := by omega
    rw [e]
    simp only [resampleLoop] at h ⊢
    by_cases hlt : s.targetIndex < length
    · simp only [hlt, if_true] at h ⊢
      exact ih _ _ h k
    · simp only [hlt, if_false] at h ⊢
      exact h

/-- A property kept by the loop body while the loop condition holds is true of the state the
loop returns, and the loop condition is false there. -/
theorem resampleLoop_invariant (max : Int) (source : Nat → Nat) (length : Nat)
    (I : ResampleState → Prop)
    (hstep : ∀ s, I s → s.targetIndex < length → I (resampleStep max source s)) :
    ∀ (fuel : Nat) (s r : ResampleState), resampleLoop max source length fuel s = some r →
      I s → I r ∧ ¬ r.targetIndex < length := by
  intro fuel
  induction fuel with
  | zero =>
    intro s r h
    simp [resampleLoop] at h
  | succ fuel ih =>
    intro s r h hI
    simp only [resampleLoop] at h
    by_cases hlt : s.targetIndex < length
    · simp only [hlt, if_true] at h
      exact ih _ _ h (hstep s hI hlt)
    · simp only [hlt, if_false, Option.some.injEq] at h
      subst h
      exact ⟨hI, hlt⟩

/-- The loop returns from every state: an emit brings `targetIndex` closer to `length`, and an
advance brings `measurement` closer to `max` by `SOUND_FREQUENCY`. -/
theorem resampleLoop_terminates (max : Int) (source : Nat → Nat) (length : Nat) :
    ∀ (d : Nat) (s : ResampleState), length - s.targetIndex ≤ d →
      ∃ fuel r, resampleLoop max source length fuel s = some r := by
  intro d
  induction d with
  | zero =>
    intro s h
    have hlt : ¬ s.targetIndex < length := by omega
    exact ⟨1, s, by simp [resampleLoop, hlt]⟩
  | succ d ih =>
    have inner : ∀ (k : Nat) (s : ResampleState), length - s.targetIndex ≤ d + 1 →
        (max - s.measurement).toNat ≤ k →
        ∃ fuel r, resampleLoop max source length fuel s = some r := by
      intro k
      induction k using Nat.strong_induction_on with
      | _ k ihk =>
        intro s hd hk
        by_cases hlt : s.targetIndex < length
        · by_cases hge : s.measurement ≥ max
          · obtain ⟨fuel, r, hr⟩ := ih (resampleStep max source s) (by
              rw [resampleStep_emit max source s hge]
              simp only
              omega)
            exact ⟨fuel + 1, r, by simp [resampleLoop, hlt, hr]⟩
          · have hk' : (max - (resampleStep max source s).measurement).toNat < k := by
              rw [resampleStep_advance max source s hge]
              simp only [SOUND_FREQUENCY]
              omega
            obtain ⟨fuel, r, hr⟩ := ihk _ hk' (resampleStep max source s) (by
              rw [resampleStep_advance max source s hge]
              exact hd) (Nat.le_refl _)
            exact ⟨fuel + 1, r, by simp [resampleLoop, hlt, hr]⟩
        · exact ⟨1, s, by simp [resampleLoop, hlt]⟩
    intro s h
    exact inner _ s h (Nat.le_refl _)

/-- The function `sound_Resample` returns: some amount of fuel is enough, and every larger amount
gives the same final state. -/
theorem sound_Resample_returns (f n : Nat) (source target : Nat → Nat) (length : Nat) :
    ∃ fuel r, ∀ fuel', fuel ≤ fuel' → sound_Resample f n source target length fuel' = some r := by
  obtain ⟨fuel, r, hr⟩ :=
    resampleLoop_terminates (resampleMax f n) source length _ (resampleInit target) (Nat.le_refl _)
  refine ⟨fuel, r, ?_⟩
  intro fuel' hle
  obtain ⟨k, rfl⟩ := Nat.exists_eq_add_of_le hle
  exact resampleLoop_mono _ _ _ _ _ _ hr k

/-- An invariant of the loop body that holds initially holds of the state `sound_Resample`
returns, where moreover `targetIndex ≥ length`. -/
theorem sound_Resample_invariant (f n : Nat) (source target : Nat → Nat) (length : Nat)
    (I : ResampleState → Prop) (h0 : I (resampleInit target))
    (hstep : ∀ s, I s → s.targetIndex < length → I (resampleStep (resampleMax f n) source s))
    (fuel : Nat) (r : ResampleState)
    (hr : sound_Resample f n source target length fuel = some r) :
    I r ∧ ¬ r.targetIndex < length :=
  resampleLoop_invariant _ _ _ I hstep fuel _ r hr h0


/-! ## Resampler: what a run writes and reads -/

/-- The write-side invariant of the loop: positions `0 .. targetIndex-1` have been written, once
each and in order, every traced store is visible in `target`, and nothing else changed. -/
theorem sound_Resample_stores (f n : Nat) (source target : Nat → Nat) (length : Nat)
    (fuel : Nat) (r : ResampleState)
    (hr : sound_Resample f n source target length fuel = some r) :
    r.targetIndex = length ∧ r.writes = List.range length ∧
      (∀ k, length ≤ k → r.target k = target k) ∧
      (∀ p ∈ r.stores, r.target p.1 = source p.2) := by
  have h := sound_Resample_invariant f n source target length
    (fun s => s.targetIndex ≤ length ∧ s.writes = List.range s.targetIndex ∧
      (∀ k, s.targetIndex ≤ k → s.target k = target k) ∧
      (∀ p ∈ s.stores, s.target p.1 = source p.2))
    (by simp [resampleInit, ResampleState.writes])
    (by
      intro s ⟨_, hw, hk, hp⟩ hlt
      by_cases hge : s.measurement ≥ resampleMax f n
      · rw [resampleStep_emit _ _ _ hge]
        refine ⟨hlt, ?_, ?_, ?_⟩
        · simp only [ResampleState.writes, List.map_append, List.map_cons, List.map_nil] at hw ⊢
          rw [hw, List.range_succ]
        · intro k hle
          simp only at hle ⊢
          rw [Function.update_noteq (by omega)]
          exact hk k (by omega)
        · intro p hmem
          simp only [List.mem_append, List.mem_singleton] at hmem
          simp only
          rcases hmem with hmem | rfl
          · have hlt' : p.1 < s.targetIndex := by
              have : p.1 ∈ s.writes := List.mem_map_of_mem Prod.fst hmem
              rw [hw] at this
              exact List.mem_range.mp this
            rw [Function.update_noteq (by omega)]
            exact hp p hmem
          · simp
      · rw [resampleStep_advance _ _ _ hge]
        exact ⟨Nat.le_of_lt hlt, hw, hk, hp⟩)
    fuel r hr
  obtain ⟨⟨hle, hw, hk, hp⟩, hnot⟩ := h
  have e : r.targetIndex = length := by omega
  refine ⟨e, ?_, ?_, hp⟩
  · rw [hw, e]
  · intro k hle'
    exact hk k (by omega)

/-- The accumulator invariant: `measurement = SOUND_FREQUENCY * (sourceIndex + 1) -
max * targetIndex`, and for `max > 0` also `0 ≤ measurement < max + SOUND_FREQUENCY`. -/
theorem sound_Resample_measurement (f n : Nat) (source target : Nat → Nat) (length : Nat)
    (hmax : 0 < resampleMax f n) (fuel : Nat) (r : ResampleState)
    (hr : sound_Resample f n source target length fuel = some r) :
    r.measurement = 48000 * ((r.sourceIndex : Int) + 1) - resampleMax f n * r.targetIndex ∧
      0 ≤ r.measurement ∧ r.measurement < resampleMax f n + 48000 := by
  have h := sound_Resample_invariant f n source target length
    (fun s => s.measurement = 48000 * ((s.sourceIndex : Int) + 1) - resampleMax f n * s.targetIndex ∧
      0 ≤ s.measurement ∧ s.measurement < resampleMax f n + 48000)
    (by simp [resampleInit, SOUND_FREQUENCY]; omega)
    (by
      intro s ⟨he, h0, h1⟩ _
      by_cases hge : s.measurement ≥ resampleMax f n
      · rw [resampleStep_emit _ _ _ hge]
        simp only
        push_cast
        refine ⟨by rw [he]; ring, by omega, by omega⟩
      · rw [resampleStep_advance _ _ _ hge]
        simp only [SOUND_FREQUENCY]
        push_cast
        refine ⟨by rw [he]; ring, by omega, by omega⟩)
    fuel r hr
  exact h.1


/-- For a positive rate, every source index read, and the final `sourceIndex` unless it is still
`0`, satisfies `SOUND_FREQUENCY * index < max * length`. -/
theorem sound_Resample_read_bound (f n : Nat) (source target : Nat → Nat) (length : Nat)
    (hmax : 0 < resampleMax f n) (fuel : Nat) (r : ResampleState)
    (hr : sound_Resample f n source target length fuel = some r) :
    (∀ i ∈ r.reads, 48000 * (i : Int) < resampleMax f n * length) ∧
      (r.sourceIndex = 0 ∨ 48000 * (r.sourceIndex : Int) < resampleMax f n * length) := by
  have h := sound_Resample_invariant f n source target length
    (fun s => (s.measurement =
        48000 * ((s.sourceIndex : Int) + 1) - resampleMax f n * s.targetIndex ∧
        s.measurement < resampleMax f n + 48000) ∧
      (∀ i ∈ s.reads, 48000 * (i : Int) < resampleMax f n * length) ∧
      (s.sourceIndex = 0 ∨ 48000 * (s.sourceIndex : Int) < resampleMax f n * length))
    (by simp [resampleInit, SOUND_FREQUENCY, ResampleState.reads]; omega)
    (by
      intro s ⟨⟨he, h1⟩, hreads, hsi⟩ hlt
      have hmul : resampleMax f n * ((s.targetIndex : Int) + 1) ≤ resampleMax f n * length :=
        mul_le_mul_of_nonneg_left (by exact_mod_cast hlt) (le_of_lt hmax)
      by_cases hge : s.measurement ≥ resampleMax f n
      · rw [resampleStep_emit _ _ _ hge]
        simp only [ResampleState.reads, List.map_append, List.map_cons, List.map_nil]
        push_cast
        refine ⟨⟨by rw [he]; ring, by omega⟩, ?_, hsi⟩
        intro i hi
        simp only [List.mem_append, List.mem_singleton] at hi
        rcases hi with hi | rfl
        · exact hreads i hi
        · linarith
      · rw [resampleStep_advance _ _ _ hge]
        simp only [SOUND_FREQUENCY]
        push_cast
        refine ⟨⟨by rw [he]; ring, by omega⟩, hreads, Or.inr ?_⟩
        have hlt' : s.measurement < resampleMax f n := by omega
        linarith)
    fuel r hr
  exact h.1.2

/-- One frame of source audio suffices: `max * length ≤ SOUND_FREQUENCY * (2 * n)` when
`max = (f * n) << 1` and `length = SOUND_FREQUENCY / f`. -/
theorem resampleMax_mul_length_le (f n : Nat) :
    resampleMax f n * ((SOUND_FREQUENCY / f : Nat) : Int) ≤ 48000 * (2 * (n : Int)) := by
  have h1 : f * (SOUND_FREQUENCY / f) ≤ 48000 := Nat.mul_div_le 48000 f
  have h2 : resampleMax f n * ((SOUND_FREQUENCY / f : Nat) : Int) =
      ((2 * n * (f * (SOUND_FREQUENCY / f)) : Nat) : Int) := by
    simp only [resampleMax, Nat.shiftLeft_eq]
    push_cast
    ring
  rw [h2]
  have h3 : 2 * n * (f * (SOUND_FREQUENCY / f)) ≤ 2 * n * 48000 := Nat.mul_le_mul_left _ h1
  have h4 : ((2 * n * (f * (SOUND_FREQUENCY / f)) : Nat) : Int) ≤ ((2 * n * 48000 : Nat) : Int) :=
    Int.ofNat_le.mpr h3
  push_cast at h4 ⊢
  linarith

/-- The rate is positive when frequency and scanline count are. -/
theorem resampleMax_pos (f n : Nat) (hf : 0 < f) (hn : 0 < n) : 0 < resampleMax f n := by
  have h : 0 < f * n := Nat.mul_pos hf hn
  simp only [resampleMax, Nat.shiftLeft_eq]
  push_cast
  have : (0 : Int) < (f : Int) * n := by exact_mod_cast h
  omega

/-- Over the integers: for every source rate
`max = (prosystem_frequency * prosystem_scanlines) << 1` with `max ≥ SOUND_FREQUENCY` and every
`length`, `sound_Resample` returns (some amount of fuel is
enough and any larger amount gives the same state), and it has then produced exactly `length`
output samples: the positions written are `0, 1, ..., length - 1`, once each and in increasing
order, and every cell at a position `≥ length` is as it was before the call. -/
theorem sound_Resample_output_length (f n : Nat) (source target : Nat → Nat) (length : Nat)
    (_hmax : (SOUND_FREQUENCY : Int) ≤ resampleMax f n) :
    ∃ fuel r,
      (∀ fuel', fuel ≤ fuel' → sound_Resample f n source target length fuel' = some r) ∧
      r.targetIndex = length ∧ r.writes = List.range length ∧
      (∀ k, length ≤ k → r.target k = target k) := by
  obtain ⟨fuel, r, hr⟩ := sound_Resample_returns f n source target length
  have h := sound_Resample_stores f n source target length fuel r (hr fuel (Nat.le_refl _))
  exact ⟨fuel, r, hr, h.1, h.2.1, h.2.2.1⟩

/-- Over the integers: for every chip frequency `f > 0` and scanline count `n > 0`, the call
`sound_Resample(source, target, SOUND_FREQUENCY / f)` of `game_step` returns, every source index
it has read is at most `2 * n - 1`, and so is the final value of `sourceIndex`. -/
theorem sound_Resample_within_frame (f n : Nat) (hf : 0 < f) (hn : 0 < n)
    (source target : Nat → Nat) :
    ∃ fuel r,
      (∀ fuel', fuel ≤ fuel' →
        sound_Resample f n source target (SOUND_FREQUENCY / f) fuel' = some r) ∧
      (∀ i ∈ r.reads, i ≤ 2 * n - 1) ∧ r.sourceIndex ≤ 2 * n - 1 := by
  obtain ⟨fuel, r, hr⟩ := sound_Resample_returns f n source target (SOUND_FREQUENCY / f)
  have hb := sound_Resample_read_bound f n source target (SOUND_FREQUENCY / f)
    (resampleMax_pos f n hf hn) fuel r (hr fuel (Nat.le_refl _))
  have hle := resampleMax_mul_length_le f n
  refine ⟨fuel, r, hr, ?_, ?_⟩
  · intro i hi
    have h1 := hb.1 i hi
    have h2 : (i : Int) < 2 * (n : Int) := by linarith
    omega
  · rcases hb.2 with h0 | h1
    · omega
    · have h2 : (r.sourceIndex : Int) < 2 * (n : Int) := by linarith
      omega

/-- Over the integers: for every value `v`, every rate and every `length`: if every source
sample that
`sound_Resample` reads equals `v`, then the call returns and afterwards `target[k] = v` for every
`k < length`. -/
theorem sound_Resample_constant (f n v : Nat) (source target : Nat → Nat) (length : Nat)
    (hsrc : ∀ fuel r, sound_Resample f n source target length fuel = some r →
      ∀ i ∈ r.reads, source i = v) :
    ∃ fuel r,
      (∀ fuel', fuel ≤ fuel' → sound_Resample f n source target length fuel' = some r) ∧
      ∀ k, k < length → r.target k = v := by
  obtain ⟨fuel, r, hr⟩ := sound_Resample_returns f n source target length
  have hrun := hr fuel (Nat.le_refl _)
  have h := sound_Resample_stores f n source target length fuel r hrun
  refine ⟨fuel, r, hr, ?_⟩
  intro k hk
  have hmem : k ∈ r.writes := by
    rw [h.2.1]
    exact List.mem_range.mpr hk
  obtain ⟨p, hp, hpk⟩ := List.mem_map.mp hmem
  have h1 := h.2.2.2 p hp
  rw [hpk] at h1
  rw [h1]
  exact hsrc fuel r hrun p.2 (List.mem_map_of_mem Prod.snd hp)

/-- The inner blit loop: the cells `surface + x`, `x < videoWidth`, receive the palette colour of
source pixel `buffer + x`, and no other cell changes. -/
theorem blitRow_apply (pal : Nat → Nat) (surf : Int → Nat) (w : Nat) (s : BlitState) (c : Nat) :
    blitRow pal surf w s c =
      if s.surface ≤ c ∧ c < s.surface + w then
        pal (surf (s.buffer + ((c - s.surface : Nat) : Int)))
      else s.framebuffer c := by
  unfold blitRow
  induction w with
  | zero =>
    have h : ¬ (s.surface ≤ c ∧ c < s.surface + 0) := by omega
    rw [if_neg h]
    rfl
  | succ w ih =>
    rw [List.range_succ, List.foldl_append]
    simp only [List.foldl_cons, List.foldl_nil]
    by_cases hc : c = s.surface + w
    · subst hc
      rw [Function.update_same]
      have h : s.surface ≤ s.surface + w ∧ s.surface + w < s.surface + (w + 1) := by omega
      rw [if_pos h, Nat.add_sub_cancel_left]
    · rw [Function.update_noteq hc, ih]
      by_cases h : s.surface ≤ c ∧ c < s.surface + w
      · have h' : s.surface ≤ c ∧ c < s.surface + (w + 1) := by omega
        rw [if_pos h, if_pos h']
      · have h' : ¬ (s.surface ≤ c ∧ c < s.surface + (w + 1)) := by omega
        rw [if_neg h, if_neg h']

/-- The state of the blit after `h` rows: both pointers have advanced `h` times, no cell outside
the rows `y < h`, columns `x < w` has changed, and for `w ≤ 320` each cell inside holds the colour
of its source pixel. -/
theorem blitLines_state (pal : Nat → Nat) (surf : Int → Nat) (base : Int) (w : Nat)
    (fb : Nat → Nat) (h : Nat) :
    ((List.range h).foldl (fun s _ => blitLine pal surf w s)
        { framebuffer := fb, surface := 0, buffer := base }).surface = 320 * h ∧
    ((List.range h).foldl (fun s _ => blitLine pal surf w s)
        { framebuffer := fb, surface := 0, buffer := base }).buffer = base + (w : Int) * h ∧
    (∀ c, (∀ y x, y < h → x < w → c ≠ y * 320 + x) →
      ((List.range h).foldl (fun s _ => blitLine pal surf w s)
        { framebuffer := fb, surface := 0, buffer := base }).framebuffer c = fb c) ∧
    (w ≤ 320 → ∀ y x, y < h → x < w →
      ((List.range h).foldl (fun s _ => blitLine pal surf w s)
        { framebuffer := fb, surface := 0, buffer := base }).framebuffer (y * 320 + x) =
          pal (surf (base + (y : Int) * w + x))) := by
  induction h with
  | zero =>
    refine ⟨by simp, by simp, ?_, ?_⟩
    · intro c _
      simp
    · intro _ y x hy
      omega
  | succ h ih =>
    rw [List.range_succ, List.foldl_append]
    simp only [List.foldl_cons, List.foldl_nil]
    obtain ⟨hs, hb, hout, hin⟩ := ih
    generalize (List.range h).foldl (fun s _ => blitLine pal surf w s)
      { framebuffer := fb, surface := 0, buffer := base } = s at hs hb hout hin
    refine ⟨?_, ?_, ?_, ?_⟩
    · simp only [blitLine, hs]
      omega
    · simp only [blitLine, hb]
      push_cast
      ring
    · intro c hc
      simp only [blitLine]
      rw [blitRow_apply]
      have hrow : ¬ (s.surface ≤ c ∧ c < s.surface + w) := by
        intro hcon
        rw [hs] at hcon
        exact hc h (c - 320 * h) (by omega) (by omega) (by omega)
      rw [if_neg hrow]
      exact hout c (fun y x hy hx => hc y x (by omega) hx)
    · intro hw y x hy hx
      simp only [blitLine]
      rw [blitRow_apply]
      by_cases hyh : y = h
      · subst hyh
        have hrow : s.surface ≤ y * 320 + x ∧ y * 320 + x < s.surface + w := by
          rw [hs]
          omega
        rw [if_pos hrow, hs, hb]
        have e : y * 320 + x - 320 * y = x := by omega
        rw [e]
        congr 2
        ring
      · have hrow : ¬ (s.surface ≤ y * 320 + x ∧ y * 320 + x < s.surface + w) := by
          rw [hs]
          omega
        rw [if_neg hrow]
        exact hin hw y x (by omega) hx

/-- C8: for every visible rectangle with `visibleWidth ≤ 320` and `visibleHeight ≤ 292`, the
blit of `game_step` leaves every framebuffer cell that is not at an offset `y * 320 + x` with
`y < visibleHeight` and `x < visibleWidth` at the value it had before, and every offset of that
form lies inside the `320 × 292` framebuffer. -/
theorem blit_writes_confined (display_palette16 : Nat → Nat) (maria_surface : Int → Nat)
    (visibleTop displayTop : Int) (visibleWidth visibleHeight : Nat) (framebuffer : Nat → Nat)
    (hw : visibleWidth ≤ VIDEO_WIDTH) (hh : visibleHeight ≤ VIDEO_HEIGHT) :
    (∀ c, (¬ ∃ y x, y < visibleHeight ∧ x < visibleWidth ∧ c = y * 320 + x) →
      blit display_palette16 maria_surface visibleTop displayTop visibleWidth visibleHeight
        framebuffer c = framebuffer c) ∧
    (∀ y x, y < visibleHeight → x < visibleWidth → y * 320 + x < VIDEO_WIDTH * VIDEO_HEIGHT) := by
  constructor
  · intro c hc
    unfold blit
    refine (blitLines_state display_palette16 maria_surface _ visibleWidth framebuffer
      visibleHeight).2.2.1 c ?_
    intro y x hy hx hcon
    exact hc ⟨y, x, hy, hx, hcon⟩
  · intro y x hy hx
    simp only [VIDEO_WIDTH, VIDEO_HEIGHT] at hw hh ⊢
    omega

/-- C8 on a `4 × 2` rectangle: the cell at offset `4` (row `0`, column `4`) keeps its value. -/
theorem blit_writes_confined_witness :
    4 ≤ VIDEO_WIDTH ∧ 2 ≤ VIDEO_HEIGHT ∧
    blit (fun i => i + 1000) (fun _ => 3) 0 0 4 2 (fun _ => 7) 4 = 7 := by
  refine ⟨by decide, by decide, ?_⟩
  refine (blit_writes_confined (fun i => i + 1000) (fun _ => 3) 0 0 4 2 (fun _ => 7)
    (by decide) (by decide)).1 4 ?_
  rintro ⟨y, x, hy, hx, h⟩
  omega

/-- C9: for every visible rectangle with `visibleWidth ≤ 320`, after the blit of `game_step`
`framebuffer[y * 320 + x] = display_palette16[maria_surface[base + y * visibleWidth + x]]` for
every `y < visibleHeight` and `x < visibleWidth`, with
`base = (visibleArea.top - displayArea.top) * visibleWidth`.  In particular, when the palette is
built by `display_ResetPalette16` from a table with entry `0 = (0,0,0)` and entry
`1 = (255,255,255)` and the first visible source row is `[0,1,0,1]` at width `4`, the blitted row
is `[0x0000, 0xFFFF, 0x0000, 0xFFFF]`. -/
theorem blit_pixels (display_palette16 : Nat → Nat) (maria_surface : Int → Nat)
    (visibleTop displayTop : Int) (visibleWidth visibleHeight : Nat) (framebuffer : Nat → Nat)
    (hw : visibleWidth ≤ 320) :
    (∀ y x, y < visibleHeight → x < visibleWidth →
      blit display_palette16 maria_surface visibleTop displayTop visibleWidth visibleHeight
        framebuffer (y * 320 + x) =
      display_palette16
        (maria_surface ((visibleTop - displayTop) * visibleWidth + (y : Int) * visibleWidth + x))) ∧
    (∀ (palette_data oldPalette : Nat → Nat) (surface : Int → Nat) (height : Nat),
      palette_data 0 = 0 → palette_data 1 = 0 → palette_data 2 = 0 →
      palette_data 3 = 255 → palette_data 4 = 255 → palette_data 5 = 255 →
      surface ((visibleTop - displayTop) * 4 + 0) = 0 →
      surface ((visibleTop - displayTop) * 4 + 1) = 1 →
      surface ((visibleTop - displayTop) * 4 + 2) = 0 →
      surface ((visibleTop - displayTop) * 4 + 3) = 1 →
      0 < height →
      (List.range 4).map (blit (display_ResetPalette16 palette_data oldPalette) surface
        visibleTop displayTop 4 height framebuffer) = [0x0000, 0xFFFF, 0x0000, 0xFFFF]) := by
  constructor
  · intro y x hy hx
    unfold blit
    exact (blitLines_state display_palette16 maria_surface _ visibleWidth framebuffer
      visibleHeight).2.2.2 hw y x hy hx
  · intro pd old surface height p0 p1 p2 p3 p4 p5 s0 s1 s2 s3 hh
    have hpix : ∀ x, x < 4 →
        blit (display_ResetPalette16 pd old) surface visibleTop displayTop 4 height framebuffer x
          = display_ResetPalette16 pd old (surface ((visibleTop - displayTop) * 4 + x)) := by
      intro x hx
      unfold blit
      have h := (blitLines_state (display_ResetPalette16 pd old) surface
        ((visibleTop - displayTop) * ((4 : Nat) : Int)) 4 framebuffer height).2.2.2
        (by decide) 0 x hh hx
      simp only [Nat.zero_mul, Nat.zero_add, Nat.cast_zero, Int.zero_mul, Int.add_zero] at h
      simpa using h
    have e0 : display_ResetPalette16 pd old 0 = 0 := by
      rw [display_ResetPalette16_apply _ _ 0 (by decide)]
      simp only [Nat.zero_mul, Nat.zero_add, Nat.add_zero, p0, p1, p2]
      decide
    have e1 : display_ResetPalette16 pd old 1 = 0xFFFF := by
      rw [display_ResetPalette16_apply _ _ 1 (by decide)]
      simp only [Nat.one_mul, Nat.add_zero, p3, p4, p5]
      decide
    have r0 := hpix 0 (by decide)
    have r1 := hpix 1 (by decide)
    have r2 := hpix 2 (by decide)
    have r3 := hpix 3 (by decide)
    simp only [Nat.cast_zero, Nat.cast_one, Nat.cast_ofNat, s0, s1, s2, s3, e0, e1] at r0 r1 r2 r3
    simp only [List.range, List.range.loop, List.map_cons, List.map_nil]
    rw [r0, r1, r2, r3]

/-- C9 on a `4 × 1` rectangle with an identity-like palette: pixel `(0, 2)` of a surface
holding `x` at offset `x` is `display_palette16[2]`. -/
theorem blit_pixels_witness :
    4 ≤ 320 ∧
    blit (fun i => i + 1000) (fun i => i.toNat) 0 0 4 1 (fun _ => 7) (0 * 320 + 2) = 1002 := by
  refine ⟨by decide, ?_⟩
  have h := (blit_pixels (fun i => i + 1000) (fun i => i.toNat) 0 0 4 1 (fun _ => 7)
    (by decide)).1 0 2 (by decide) (by decide)
  rw [h]
  decide


/-! ## Input translation -/

/-- The value of `0.35f` lies just below `0.35`. -/
theorem TRIM_lt : TRIM < 35 / 100 := by
  norm_num [TRIM]

/-- No binary32 value lies strictly between `0.35f` and `0.35`, so for a `float` operand the
test against `TRIM` is the test against `0.35`. -/
theorem IsBinary32.trim_lt_iff (q : ℚ) (hq : IsBinary32 q) : TRIM < q ↔ 35 / 100 < q := by
  constructor
  · intro h
    obtain ⟨m, e, hm, _, _, rfl⟩ := hq
    by_contra hcon
    have hle : (m : ℚ) * (2 : ℚ) ^ e ≤ 35 / 100 := not_lt.mp hcon
    by_cases he : -25 ≤ e
    · obtain ⟨j, hj⟩ : ∃ j : Nat, e = (j : Int) - 25 := ⟨(e + 25).toNat, by omega⟩
      have hpow : (2 : ℚ) ^ e = (2 : ℚ) ^ j / 33554432 := by
        rw [hj, zpow_sub₀ (by norm_num : (2 : ℚ) ≠ 0), zpow_natCast]
        norm_num
      rw [hpow] at h hle
      have hK : ((m * 2 ^ j : Int) : ℚ) = (m : ℚ) * (2 : ℚ) ^ j := by push_cast; ring
      have h1 : ((11744051 : Int) : ℚ) < ((m * 2 ^ j : Int) : ℚ) := by
        rw [hK]
        unfold TRIM at h
        push_cast
        linarith
      have h2 : (11744051 : Int) < m * 2 ^ j := by exact_mod_cast h1
      have h3 : (11744052 : Int) ≤ m * 2 ^ j := by omega
      have h4 : ((11744052 : Int) : ℚ) ≤ ((m * 2 ^ j : Int) : ℚ) := by exact_mod_cast h3
      rw [hK] at h4
      push_cast at h4
      linarith
    · have he' : e ≤ -26 := by omega
      have hpow : (2 : ℚ) ^ e ≤ (2 : ℚ) ^ (-26 : Int) :=
        zpow_le_zpow_right₀ (by norm_num) he'
      have hpos : (0 : ℚ) < (2 : ℚ) ^ e := zpow_pos (by norm_num) e
      have hm' : (m : ℚ) < 2 ^ 24 := by
        have : m < 2 ^ 24 := lt_of_le_of_lt (le_abs_self m) hm
        exact_mod_cast this
      have h26 : (2 : ℚ) ^ (-26 : Int) = 1 / 67108864 := by
        rw [zpow_neg]
        norm_num
      rw [h26] at hpow
      unfold TRIM at h
      have hprod : (m : ℚ) * (2 : ℚ) ^ e ≤ 2 ^ 24 * (2 : ℚ) ^ e :=
        mul_le_mul_of_nonneg_right (le_of_lt hm') (le_of_lt hpos)
      have hprod2 : (2 : ℚ) ^ 24 * (2 : ℚ) ^ e ≤ 2 ^ 24 * (1 / 67108864) :=
        mul_le_mul_of_nonneg_left hpow (by norm_num)
      norm_num at hprod2
      linarith
  · intro h
    exact lt_trans TRIM_lt h

/-- The negative of a binary32 value is a binary32 value. -/
theorem IsBinary32.neg (q : ℚ) (hq : IsBinary32 q) : IsBinary32 (-q) := by
  obtain ⟨m, e, hm, h1, h2, rfl⟩ := hq
  refine ⟨-m, e, by rwa [abs_neg], h1, h2, ?_⟩
  push_cast
  ring

/-- On `float` values the test `a > TRIM` is the test `a > 0.35`. -/
theorem F32.gt_TRIM (a : F32) (ha : a.WellFormed) : a.gt TRIM = a.gt (35 / 100) := by
  cases a with
  | finite q =>
    simp only [F32.gt, gt_iff_lt]
    exact decide_eq_decide.mpr (IsBinary32.trim_lt_iff q ha)
  | posInf => rfl
  | negInf => rfl
  | nan => rfl

/-- On `float` values the test `a < -TRIM` is the test `a < -0.35`. -/
theorem F32.lt_neg_TRIM (a : F32) (ha : a.WellFormed) : a.lt (-TRIM) = a.lt (-(35 / 100)) := by
  cases a with
  | finite q =>
    simp only [F32.lt]
    apply decide_eq_decide.mpr
    have h := IsBinary32.trim_lt_iff (-q) (IsBinary32.neg q ha)
    constructor
    · intro h1
      have := h.mp (by linarith)
      linarith
    · intro h1
      have := h.mpr (by linarith)
      linarith
  | posInf => rfl
  | negInf => rfl
  | nan => rfl

/-- The values `0`, `0.5` and `0.2f = 13421773 / 2 ^ 26` are binary32 values. -/
theorem isBinary32_zero : IsBinary32 0 := ⟨0, 0, by norm_num, by norm_num, by norm_num, by norm_num⟩

theorem isBinary32_half : IsBinary32 (1 / 2) :=
  ⟨1, -1, by norm_num, by norm_num, by norm_num, by norm_num⟩

theorem isBinary32_fifth : IsBinary32 (13421773 / 67108864) :=
  ⟨13421773, -26, by norm_num, by norm_num, by norm_num, by
    rw [zpow_neg]
    norm_num⟩

/-- The cells of `keyboard_data` after the input translation. -/
theorem translateInput_cells (g : go2_gamepad_state_t) (k : Nat → Nat) :
    translateInput g k 0 = cell (g.dpad.right || g.thumb.x.gt TRIM) ∧
    translateInput g k 1 = cell (g.dpad.left || g.thumb.x.lt (-TRIM)) ∧
    translateInput g k 2 = cell (g.dpad.down || g.thumb.y.gt TRIM) ∧
    translateInput g k 3 = cell (g.dpad.up || g.thumb.y.lt (-TRIM)) ∧
    translateInput g k 4 = cell g.buttons.a ∧
    translateInput g k 5 = cell g.buttons.b ∧
    translateInput g k 12 = cell g.buttons.f6 ∧
    translateInput g k 13 = cell g.buttons.f3 ∧
    translateInput g k 14 = cell g.buttons.f4 ∧
    (∀ i, i ≠ 0 → i ≠ 1 → i ≠ 2 → i ≠ 3 → i ≠ 4 → i ≠ 5 → i ≠ 12 → i ≠ 13 → i ≠ 14 →
      translateInput g k i = k i) := by
  refine ⟨?_, ?_, ?_, ?_, ?_, ?_, ?_, ?_, ?_, ?_⟩
  · simp [translateInput, Function.update]
  · simp [translateInput, Function.update]
  · simp [translateInput, Function.update]
  · simp [translateInput, Function.update]
  · simp [translateInput, Function.update]
  · simp [translateInput, Function.update]
  · simp [translateInput, Function.update]
  · simp [translateInput, Function.update]
  · simp [translateInput, Function.update]
  · intro i h0 h1 h2 h3 h4 h5 h12 h13 h14
    simp [translateInput, Function.update, h0, h1, h2, h3, h4, h5, h12, h13, h14]


/-- C10: for every gamepad snapshot whose axes are `float` values, the input translation of
`game_step` sets cell 0 (right) to `dpad.right || thumb.x > 0.35`, cell 1 (left) to
`dpad.left || thumb.x < -0.35`, cell 2 (down) to `dpad.down || thumb.y > 0.35` and cell 3 (up) to
`dpad.up || thumb.y < -0.35`.  Hence with the dpad idle: both axes at `0` give four cells `0`;
`thumb.x = 0.5` gives right `1` and left `0`; `thumb.x = 0.2f` gives right `0` and left `0`. -/
theorem translateInput_directions (g : go2_gamepad_state_t) (k : Nat → Nat)
    (hx : g.thumb.x.WellFormed) (hy : g.thumb.y.WellFormed) :
    (translateInput g k 0 = cell (g.dpad.right || g.thumb.x.gt (35 / 100)) ∧
      translateInput g k 1 = cell (g.dpad.left || g.thumb.x.lt (-(35 / 100))) ∧
      translateInput g k 2 = cell (g.dpad.down || g.thumb.y.gt (35 / 100)) ∧
      translateInput g k 3 = cell (g.dpad.up || g.thumb.y.lt (-(35 / 100)))) ∧
    (g.dpad = { up := false, down := false, left := false, right := false } →
      g.thumb.x = F32.finite 0 → g.thumb.y = F32.finite 0 →
      translateInput g k 0 = 0 ∧ translateInput g k 1 = 0 ∧ translateInput g k 2 = 0 ∧
        translateInput g k 3 = 0) ∧
    (g.dpad = { up := false, down := false, left := false, right := false } →
      g.thumb.x = F32.finite (1 / 2) →
      translateInput g k 0 = 1 ∧ translateInput g k 1 = 0) ∧
    (g.dpad = { up := false, down := false, left := false, right := false } →
      g.thumb.x = F32.finite (13421773 / 67108864) →
      translateInput g k 0 = 0 ∧ translateInput g k 1 = 0) := by
  obtain ⟨c0, c1, c2, c3, _⟩ := translateInput_cells g k
  refine ⟨⟨?_, ?_, ?_, ?_⟩, ?_, ?_, ?_⟩
  · rw [c0, F32.gt_TRIM _ hx]
  · rw [c1, F32.lt_neg_TRIM _ hx]
  · rw [c2, F32.gt_TRIM _ hy]
  · rw [c3, F32.lt_neg_TRIM _ hy]
  · intro hd h1 h2
    rw [c0, c1, c2, c3, hd, h1, h2]
    norm_num [cell, F32.gt, F32.lt, TRIM]
  · intro hd h1
    rw [c0, c1, hd, h1]
    norm_num [cell, F32.gt, F32.lt, TRIM]
  · intro hd h1
    rw [c0, c1, hd, h1]
    norm_num [cell, F32.gt, F32.lt, TRIM]

/-- C10 at the snapshot with the dpad idle, `thumb.x = 0.5` and `thumb.y = 0`: right is `1` and
left is `0`. -/
theorem translateInput_directions_witness :
    (F32.finite (1 / 2)).WellFormed ∧ (F32.finite 0).WellFormed ∧
    translateInput
      { thumb := { x := F32.finite (1 / 2), y := F32.finite 0 }
        dpad := { up := false, down := false, left := false, right := false }
        buttons := { a := false, b := false, f1 := false, f3 := false, f4 := false, f6 := false } }
      (fun _ => 0) 0 = 1 ∧
    translateInput
      { thumb := { x := F32.finite (1 / 2), y := F32.finite 0 }
        dpad := { up := false, down := false, left := false, right := false }
        buttons := { a := false, b := false, f1 := false, f3 := false, f4 := false, f6 := false } }
      (fun _ => 0) 1 = 0 := by
  have h := (translateInput_directions
      { thumb := { x := F32.finite (1 / 2), y := F32.finite 0 }
        dpad := { up := false, down := false, left := false, right := false }
        buttons := { a := false, b := false, f1 := false, f3 := false, f4 := false, f6 := false } }
      (fun _ => 0) isBinary32_half isBinary32_zero).2.2.1 rfl rfl
  exact ⟨isBinary32_half, isBinary32_zero, h.1, h.2⟩

/-! ## Audio -/

/-- Two runs of `sound_Resample` on the same arguments that return, return the same state. -/
theorem sound_Resample_unique (f n : Nat) (source target : Nat → Nat) (length : Nat)
    (fuel1 fuel2 : Nat) (r1 r2 : ResampleState)
    (h1 : sound_Resample f n source target length fuel1 = some r1)
    (h2 : sound_Resample f n source target length fuel2 = some r2) : r1 = r2 := by
  have e1 := resampleLoop_mono _ _ _ _ _ _ h1 fuel2
  have e2 := resampleLoop_mono _ _ _ _ _ _ h2 fuel1
  rw [Nat.add_comm] at e2
  rw [e1] at e2
  exact Option.some.inj e2

/-- Every output position `k < length` holds the source sample of some index the run has read. -/
theorem sound_Resample_target_mem (f n : Nat) (source target : Nat → Nat) (length : Nat)
    (fuel : Nat) (r : ResampleState)
    (hr : sound_Resample f n source target length fuel = some r) (k : Nat) (hk : k < length) :
    ∃ i ∈ r.reads, r.target k = source i := by
  have h := sound_Resample_stores f n source target length fuel r hr
  have hmem : k ∈ r.writes := by
    rw [h.2.1]
    exact List.mem_range.mpr hk
  obtain ⟨p, hp, hpk⟩ := List.mem_map.mp hmem
  have h1 := h.2.2.2 p hp
  rw [hpk] at h1
  exact ⟨p.2, List.mem_map_of_mem Prod.snd hp, h1⟩

/-- The two stores of the mixing loop body amount to one: the cell receives half of the sum
reduced modulo `256`. -/
theorem mixCell_eq (sample pokeySample : Nat → Nat) (index : Nat) :
    mixCell sample pokeySample index =
      Function.update sample index (((sample index + pokeySample index) % 2 ^ 8) / 2) := by
  unfold mixCell
  simp only [Function.update_same, Function.update_idem]
  have h : (sample index + pokeySample index) % 2 ^ 8 < 2 ^ 8 := Nat.mod_lt _ (by norm_num)
  have h2 : (sample index + pokeySample index) % 2 ^ 8 / 2 < 2 ^ 8 :=
    lt_of_le_of_lt (Nat.div_le_self _ _) h
  rw [Nat.mod_eq_of_lt h2]

/-- The mixing loop, cell by cell. -/
theorem mixLoop_apply (sample pokeySample : Nat → Nat) (length i : Nat) :
    mixLoop sample pokeySample length i =
      if i < length then ((sample i + pokeySample i) % 2 ^ 8) / 2 else sample i := by
  unfold mixLoop
  have h := foldl_update_range (fun a k => ((a + pokeySample k) % 2 ^ 8) / 2) sample length i
  have e : (fun smp index => mixCell smp pokeySample index) =
      (fun a k => Function.update a k (((a k + pokeySample k) % 2 ^ 8) / 2)) := by
    funext smp index
    exact mixCell_eq smp pokeySample index
  rw [e]
  exact h

/-- The PCM loop, frame by frame. -/
theorem pcmLoop_apply (sample : Nat → Nat) (length : Nat) (framePtr : Nat → Nat) (i : Nat) :
    pcmLoop sample length framePtr i =
      if i < length then pcmFrame (sample i) else framePtr i := by
  unfold pcmLoop
  exact foldl_update_range (fun _ k => pcmFrame (sample k)) framePtr length i

/-- The audio section without the auxiliary stream, once the resampler has returned. -/
theorem gameStepAudio_tia (f n : Nat) (tia pokey sb : Nat → Nat) (fuel : Nat) (r : ResampleState)
    (hr : sound_Resample f n tia (fun _ => 0) (SOUND_FREQUENCY / f) fuel = some r) :
    gameStepAudio f n false tia pokey sb fuel =
      some { sample := r.target, frames := pcmLoop r.target (SOUND_FREQUENCY / f) sb,
             frameCount := SOUND_FREQUENCY / f } := by
  simp [gameStepAudio, hr]

/-- The audio section with the auxiliary stream, once both resampler calls have returned. -/
theorem gameStepAudio_pokey (f n : Nat) (tia pokey sb : Nat → Nat) (fuel : Nat)
    (r p : ResampleState)
    (hr : sound_Resample f n tia (fun _ => 0) (SOUND_FREQUENCY / f) fuel = some r)
    (hp : sound_Resample f n pokey (fun _ => 0) (SOUND_FREQUENCY / f) fuel = some p) :
    gameStepAudio f n true tia pokey sb fuel =
      some { sample := mixLoop r.target p.target (SOUND_FREQUENCY / f),
             frames := pcmLoop (mixLoop r.target p.target (SOUND_FREQUENCY / f))
               (SOUND_FREQUENCY / f) sb,
             frameCount := SOUND_FREQUENCY / f } := by
  simp [gameStepAudio, hr, hp]

/-- C2, the code at a failing input: at the NTSC timing with the auxiliary stream present, a
primary stream of constant `200` and an auxiliary stream of constant `100`, the audio section of
`game_step` returns with mixed sample `sample[0] = 22`, whereas `(200 + 100) / 2 = 150`. -/
theorem gameStepAudio_mix_wraps :
    ∃ fuel out,
      gameStepAudio 60 262 true (fun _ => 200) (fun _ => 100) (fun _ => 0) fuel = some out ∧
      out.sample 0 = 22 ∧ (200 + 100) / 2 = 150 := by
  obtain ⟨fuel1, r, hr⟩ :=
    sound_Resample_returns 60 262 (fun _ => 200) (fun _ => 0) (SOUND_FREQUENCY / 60)
  obtain ⟨fuel2, p, hp⟩ :=
    sound_Resample_returns 60 262 (fun _ => 100) (fun _ => 0) (SOUND_FREQUENCY / 60)
  have hr' := hr (fuel1 + fuel2) (by omega)
  have hp' := hp (fuel1 + fuel2) (by omega)
  have hlen : 0 < SOUND_FREQUENCY / 60 := by decide
  obtain ⟨i, _, hi⟩ := sound_Resample_target_mem _ _ _ _ _ _ r hr' 0 hlen
  obtain ⟨j, _, hj⟩ := sound_Resample_target_mem _ _ _ _ _ _ p hp' 0 hlen
  refine ⟨fuel1 + fuel2, _, gameStepAudio_pokey 60 262 _ _ _ _ r p hr' hp', ?_, by decide⟩
  simp only
  rw [mixLoop_apply, if_pos hlen, hi, hj]
  norm_num

/-- C3, the code at a failing input: at the NTSC timing without the auxiliary stream and a
primary stream of constant `0xFF`, the audio section of `game_step` returns with frame `0` equal
to `0xFFFFFF00`: the lower half is `0xFF00 = (0xFF << 8) mod 2 ^ 16` and the upper half is
`0xFFFF`, so the two halves differ. -/
theorem gameStepAudio_pcm_sign_extends :
    ∃ fuel out,
      gameStepAudio 60 262 false (fun _ => 0xFF) (fun _ => 0) (fun _ => 0) fuel = some out ∧
      out.frames 0 = 0xFFFFFF00 ∧ out.frames 0 % 2 ^ 16 = 0xFF00 ∧
      out.frames 0 / 2 ^ 16 = 0xFFFF ∧ (0xFF <<< 8) % 2 ^ 16 = 0xFF00 := by
  obtain ⟨fuel, r, hr⟩ :=
    sound_Resample_returns 60 262 (fun _ => 0xFF) (fun _ => 0) (SOUND_FREQUENCY / 60)
  have hr' := hr fuel (Nat.le_refl _)
  have hlen : 0 < SOUND_FREQUENCY / 60 := by decide
  obtain ⟨i, _, hi⟩ := sound_Resample_target_mem _ _ _ _ _ _ r hr' 0 hlen
  have hframe : pcmLoop r.target (SOUND_FREQUENCY / 60) (fun _ => 0) 0 = 0xFFFFFF00 := by
    rw [pcmLoop_apply, if_pos hlen, hi]
    rfl
  refine ⟨fuel, _, gameStepAudio_tia 60 262 _ (fun _ => 0) _ _ r hr', ?_, ?_, ?_, by rfl⟩
  · simp only
    exact hframe
  · simp only
    rw [hframe]
    norm_num
  · simp only
    rw [hframe]
    norm_num

/-! ## Main loop -/

/-- More fuel does not change the result of a run of the main loop that has returned. -/
theorem mainLoop_mono (input : Nat → go2_gamepad_state_t) :
    ∀ (fuel : Nat) (s r : MainState), mainLoop input fuel s = some r →
      ∀ k, mainLoop input (fuel + k) s = some r := by
  intro fuel
  induction fuel with
  | zero =>
    intro s r h
    simp [mainLoop] at h
  | succ fuel ih =>
    intro s r h k
    have e : fuel + 1 + k = (fuel + k) + 1 := by omega
    rw [e]
    simp only [mainLoop] at h ⊢
    by_cases hrun : s.isRunning = true
    · simp only [hrun, if_true] at h ⊢
      exact ih _ _ h k
    · simp only [hrun] at h ⊢
      exact h

/-- One iteration of the main loop: a snapshot is read, its events are logged, and `isRunning`
is cleared exactly when the snapshot has `buttons.f1` set. -/
theorem mainBody_effect (input : Nat → go2_gamepad_state_t) (s : MainState) :
    (mainBody input s).log = s.log ++ iterationEvents (input s.polled).buttons.f1 ∧
    (mainBody input s).polled = s.polled + 1 ∧
    (mainBody input s).isRunning =
      (if (input s.polled).buttons.f1 then false else s.isRunning) := by
  simp [mainBody, presenterPost, game_step, ReadJoysticks, iterationEvents]

/-- A run of the main loop from a running state whose next `q` snapshots have `buttons.f1`
clear and whose snapshot after those has it set: `q + 2` tests of `isRunning` are enough, and the
log grows by `q` running iterations and one last iteration. -/
theorem mainLoop_run (input : Nat → go2_gamepad_state_t) :
    ∀ (q : Nat) (s : MainState), s.isRunning = true →
      (∀ i, i < q → (input (s.polled + i)).buttons.f1 = false) →
      (input (s.polled + q)).buttons.f1 = true →
      ∃ r, mainLoop input (q + 2) s = some r ∧
        r.log = s.log ++ (runningEvents q ++ iterationEvents true) ∧ r.isRunning = false := by
  intro q
  induction q with
  | zero =>
    intro s hrun _ hquit
    obtain ⟨hlog, _, hflag⟩ := mainBody_effect input s
    rw [Nat.add_zero] at hquit
    rw [hquit] at hlog hflag
    refine ⟨mainBody input s, ?_, ?_, ?_⟩
    · simp only [mainLoop, hrun, if_true]
      have : (mainBody input s).isRunning = false := by simpa using hflag
      simp [this]
    · simpa [runningEvents] using hlog
    · simpa using hflag
  | succ q ih =>
    intro s hrun hfirst hquit
    obtain ⟨hlog, hpolled, hflag⟩ := mainBody_effect input s
    have h0 : (input s.polled).buttons.f1 = false := by
      have := hfirst 0 (Nat.succ_pos _)
      simpa using this
    rw [h0] at hlog hflag
    have hrun' : (mainBody input s).isRunning = true := by simpa [hrun] using hflag
    obtain ⟨r, hr, hrlog, hrflag⟩ := ih (mainBody input s) hrun'
      (by
        intro i hi
        rw [hpolled]
        have := hfirst (i + 1) (by omega)
        rw [show s.polled + 1 + i = s.polled + (i + 1) by omega]
        exact this)
      (by
        rw [hpolled, show s.polled + 1 + q = s.polled + (q + 1) by omega]
        exact hquit)
    refine ⟨r, ?_, ?_, hrflag⟩
    · have e : q + 1 + 2 = (q + 2) + 1 := by omega
      rw [e]
      simp only [mainLoop, hrun, if_true]
      exact hr
    · rw [hrlog, hlog]
      simp [runningEvents, List.append_assoc]

/-- C11, as stated, fails: when the first snapshot polled has the quit button `f1` set, the run
of the main loop logs `poll, executeFrame, audioSubmit, present` and returns: the call
`executeFrame` is among the events after the observation. -/
theorem mainLoop_executes_after_quit :
    (mainLoop
      (fun _ =>
        { thumb := { x := F32.finite 0, y := F32.finite 0 }
          dpad := { up := false, down := false, left := false, right := false }
          buttons := { a := false, b := false, f1 := true, f3 := false, f4 := false,
                       f6 := false } })
      2
      (mainInit
        { thumb := { x := F32.finite 0, y := F32.finite 0 }
          dpad := { up := false, down := false, left := false, right := false }
          buttons := { a := false, b := false, f1 := false, f3 := false, f4 := false,
                       f6 := false } }
        (fun _ => 0))).map MainState.log
      = some [Event.poll true, Event.executeFrame, Event.audioSubmit, Event.present] ∧
    Event.executeFrame ∈ [Event.executeFrame, Event.audioSubmit, Event.present] := by
  refine ⟨by rfl, by decide⟩

/-- C11, amended: for every input stream in which snapshot `q` is the first with the quit
button `f1` set, the main loop returns, and its log is the `q` running iterations followed by
`poll true, executeFrame, audioSubmit, present`: after the observation there is exactly one more
`executeFrame`, then exactly one audio-submit/present pair, then the loop ends. -/
theorem mainLoop_quit (input : Nat → go2_gamepad_state_t) (gamepadState : go2_gamepad_state_t)
    (keyboard_data : Nat → Nat) (q : Nat)
    (hfirst : ∀ i, i < q → (input i).buttons.f1 = false)
    (hquit : (input q).buttons.f1 = true) :
    ∃ fuel r,
      (∀ fuel', fuel ≤ fuel' →
        mainLoop input fuel' (mainInit gamepadState keyboard_data) = some r) ∧
      r.log = runningEvents q ++
        [Event.poll true, Event.executeFrame, Event.audioSubmit, Event.present] ∧
      r.isRunning = false := by
  obtain ⟨r, hr, hlog, hflag⟩ := mainLoop_run input q (mainInit gamepadState keyboard_data) rfl
    (by
      intro i hi
      simpa [mainInit] using hfirst i hi)
    (by simpa [mainInit] using hquit)
  refine ⟨q + 2, r, ?_, ?_, hflag⟩
  · intro fuel' hle
    obtain ⟨k, rfl⟩ := Nat.exists_eq_add_of_le hle
    exact mainLoop_mono input _ _ _ hr k
  · simpa [mainInit, iterationEvents] using hlog

/-- C11, amended, on the stream whose snapshot `i` has `f1` set exactly when `i = 2`. -/
theorem mainLoop_quit_witness :
    ∃ fuel r,
      (∀ fuel', fuel ≤ fuel' →
        mainLoop
          (fun i =>
            { thumb := { x := F32.finite 0, y := F32.finite 0 }
              dpad := { up := false, down := false, left := false, right := false }
              buttons := { a := false, b := false, f1 := decide (i = 2), f3 := false,
                           f4 := false, f6 := false } })
          fuel'
          (mainInit
            { thumb := { x := F32.finite 0, y := F32.finite 0 }
              dpad := { up := false, down := false, left := false, right := false }
              buttons := { a := false, b := false, f1 := false, f3 := false, f4 := false,
                           f6 := false } }
            (fun _ => 0)) = some r) ∧
      r.log = runningEvents 2 ++
        [Event.poll true, Event.executeFrame, Event.audioSubmit, Event.present] ∧
      r.isRunning = false :=
  mainLoop_quit _ _ _ 2
    (by
      intro i hi
      simp only [decide_eq_false_iff_not]
      omega)
    (by simp)

/-- The input translation leaves the cells of joystick 2 and of the difficulty switches. -/
theorem translateInput_untouched (g : go2_gamepad_state_t) (k : Nat → Nat) (i : Nat)
    (hi : (6 ≤ i ∧ i ≤ 11) ∨ i = 15 ∨ i = 16) : translateInput g k i = k i :=
  (translateInput_cells g k).2.2.2.2.2.2.2.2.2 i (by omega) (by omega) (by omega) (by omega)
    (by omega) (by omega) (by omega) (by omega) (by omega)

/-- C12: the input translation of `game_step` leaves cells 6..11 (joystick 2) and cells 15 and
16 (difficulty) of `keyboard_data` as they were, for every snapshot and every prior vector; so
after `game_init` the values `keyboard_data[15] = 1`, `keyboard_data[16] = 0` and
`keyboard_data[6..11] = 0` hold after any sequence of input translations. -/
theorem translateInput_frame (g : go2_gamepad_state_t) (k : Nat → Nat) (i : Nat)
    (hi : (6 ≤ i ∧ i ≤ 11) ∨ i = 15 ∨ i = 16) :
    translateInput g k i = k i ∧
    ∀ (snapshots : List go2_gamepad_state_t) (keyboard_data : Nat → Nat),
      (snapshots.foldl (fun kd s => translateInput s kd) (game_init_keyboard keyboard_data)) i =
        if i = 15 then 1 else 0 := by
  refine ⟨translateInput_untouched g k i hi, ?_⟩
  intro snapshots keyboard_data
  have hfold : ∀ (l : List go2_gamepad_state_t) (kd : Nat → Nat),
      (l.foldl (fun kd s => translateInput s kd) kd) i = kd i := by
    intro l
    induction l with
    | nil => intro kd; rfl
    | cons s l ih =>
      intro kd
      rw [List.foldl_cons, ih, translateInput_untouched s kd i hi]
  rw [hfold]
  rcases hi with ⟨h1, h2⟩ | h | h
  · have h15 : i ≠ 15 := by omega
    have h16 : i ≠ 16 := by omega
    have h17 : i < 17 := by omega
    simp [game_init_keyboard, Function.update, h15, h16, h17]
  · subst h
    simp [game_init_keyboard, Function.update]
  · subst h
    simp [game_init_keyboard, Function.update]

/-- C12 at cell 15 (left difficulty) and a snapshot with every control active. -/
theorem translateInput_frame_witness :
    ((6 ≤ 15 ∧ 15 ≤ 11) ∨ 15 = 15 ∨ 15 = 16) ∧
    translateInput
      { thumb := { x := F32.posInf, y := F32.negInf }
        dpad := { up := true, down := true, left := true, right := true }
        buttons := { a := true, b := true, f1 := true, f3 := true, f4 := true, f6 := true } }
      (game_init_keyboard (fun _ => 9)) 15 = game_init_keyboard (fun _ => 9) 15 :=
  ⟨by decide, (translateInput_frame _ _ 15 (by decide)).1⟩


/-! ## Audio buffer and frame conversion -/

set_option maxRecDepth 100000 in
/-- The PCM frame of every 8-bit sample, by cases on its top bit. -/
theorem pcmFrame_cases : ∀ s : Fin 256,
    (s.val < 128 → pcmFrame s.val = (s.val <<< 24) ||| (s.val <<< 8) ∧
      pcmFrame s.val / 2 ^ 16 = pcmFrame s.val % 2 ^ 16) ∧
    (128 ≤ s.val → pcmFrame s.val = 0xFFFF0000 ||| (s.val <<< 8) ∧
      pcmFrame s.val % 2 ^ 16 = s.val <<< 8 ∧ pcmFrame s.val / 2 ^ 16 = 0xFFFF) := by
  decide

/-- C14: with two's-complement wrap-around for the `int16_t` conversion and the 32-bit shift,
the PCM loop of `game_step` stores for an 8-bit sample `s` the frame `(s << 24) | (s << 8)` when
`s < 128` (both halves equal; `0` gives `0x00000000`), and the frame `0xFFFF0000 | (s << 8)` when
`s ≥ 128` (lower half `s << 8`, upper half `0xFFFF`). -/
theorem pcmLoop_frame (sample : Nat → Nat) (length : Nat) (framePtr : Nat → Nat) (i : Nat)
    (hi : i < length) (hs : sample i < 256) :
    (sample i < 128 →
      pcmLoop sample length framePtr i = (sample i <<< 24) ||| (sample i <<< 8) ∧
      pcmLoop sample length framePtr i / 2 ^ 16 = pcmLoop sample length framePtr i % 2 ^ 16) ∧
    (sample i = 0 → pcmLoop sample length framePtr i = 0x00000000) ∧
    (128 ≤ sample i →
      pcmLoop sample length framePtr i = 0xFFFF0000 ||| (sample i <<< 8) ∧
      pcmLoop sample length framePtr i % 2 ^ 16 = sample i <<< 8 ∧
      pcmLoop sample length framePtr i / 2 ^ 16 = 0xFFFF) := by
  rw [pcmLoop_apply, if_pos hi]
  have h := pcmFrame_cases ⟨sample i, hs⟩
  simp only at h
  refine ⟨h.1, ?_, h.2⟩
  intro h0
  rw [h0]
  rfl

/-- C14 at the samples `0x7F` and `0x80` of a two-sample buffer. -/
theorem pcmLoop_frame_witness :
    pcmLoop (fun i => 0x7F + i) 2 (fun _ => 0) 0 = 0x7F007F00 ∧
    pcmLoop (fun i => 0x7F + i) 2 (fun _ => 0) 1 = 0xFFFF8000 := by
  have h0 := (pcmLoop_frame (fun i => 0x7F + i) 2 (fun _ => 0) 0 (by decide) (by decide)).1
    (by decide)
  have h1 := (pcmLoop_frame (fun i => 0x7F + i) 2 (fun _ => 0) 1 (by decide) (by decide)).2.2
    (by decide)
  refine ⟨?_, ?_⟩
  · rw [h0.1]
    rfl
  · rw [h1.1]
    rfl

/-- The state a run of the loop returns is the state at one of its loop heads. -/
theorem resampleLoop_eq_resampleAt (max : Int) (source : Nat → Nat) (length : Nat) :
    ∀ (fuel : Nat) (s r : ResampleState), resampleLoop max source length fuel s = some r →
      resampleAt max source length fuel s = r := by
  intro fuel
  induction fuel with
  | zero =>
    intro s r h
    simp [resampleLoop] at h
  | succ fuel ih =>
    intro s r h
    simp only [resampleLoop] at h
    simp only [resampleAt]
    by_cases hlt : s.targetIndex < length
    · simp only [hlt, if_true] at h ⊢
      exact ih _ _ h
    · simp only [hlt, if_false, Option.some.injEq] at h ⊢
      exact h

/-- Storing a value of the `int` range in an `int` does not change it. -/
theorem wrapInt32_eq (x : Int) (h0 : -2147483648 ≤ x) (h1 : x < 2147483648) :
    wrapInt32 x = x := by
  unfold wrapInt32
  omega

/-- The 32-bit rate is the exact rate `2 * f * n` when that fits an `int`. -/
theorem resampleMax32_eq (f n : Nat) (hfit : resampleMax f n < 2 ^ 31) :
    resampleMax32 f n = resampleMax f n := by
  unfold resampleMax32
  have h0 : 0 ≤ resampleMax f n := by
    unfold resampleMax
    exact Int.ofNat_nonneg _
  have h1 : resampleMax f n < 2147483648 := by
    norm_num at hfit
    exact hfit
  unfold resampleMax at h0 h1 ⊢
  exact wrapInt32_eq _ (by omega) h1

/-- While `0 ≤ measurement ≤ max + 48000 < 2^31`, no operation of the loop body leaves the
`int` range: the 32-bit body and the body over the integers do the same, and the bounds hold
again afterwards. -/
theorem resampleStep32_eq (max : Int) (h0 : 0 ≤ max) (hfit : max + 48000 < 2 ^ 31)
    (source : Nat → Nat) (s : ResampleState) (hm0 : 0 ≤ s.measurement)
    (hm1 : s.measurement ≤ max + 48000) :
    resampleStep32 max source s = resampleStep max source s ∧
    0 ≤ (resampleStep max source s).measurement ∧
    (resampleStep max source s).measurement ≤ max + 48000 := by
  norm_num at hfit
  by_cases hge : s.measurement ≥ max
  · rw [resampleStep_emit _ _ _ hge]
    simp only [resampleStep32, hge, if_true]
    rw [wrapInt32_eq _ (by omega) (by omega)]
    exact ⟨rfl, by omega, by omega⟩
  · rw [resampleStep_advance _ _ _ hge]
    simp only [resampleStep32, hge, if_false, SOUND_FREQUENCY]
    rw [wrapInt32_eq _ (by push_cast; omega) (by push_cast; omega)]
    exact ⟨rfl, by push_cast; omega, by push_cast; omega⟩

/-- For `0 ≤ max` and `max + 48000 < 2^31` a run of the 32-bit loop is the run over the
integers. -/
theorem resampleLoop32_eq (max : Int) (h0 : 0 ≤ max) (hfit : max + 48000 < 2 ^ 31)
    (source : Nat → Nat) (length : Nat) :
    ∀ (fuel : Nat) (s : ResampleState), 0 ≤ s.measurement → s.measurement ≤ max + 48000 →
      resampleLoop32 max source length fuel s = resampleLoop max source length fuel s := by
  intro fuel
  induction fuel with
  | zero =>
    intro s _ _
    rfl
  | succ fuel ih =>
    intro s hm0 hm1
    obtain ⟨e, h2, h3⟩ := resampleStep32_eq max h0 hfit source s hm0 hm1
    simp only [resampleLoop32, resampleLoop]
    by_cases hlt : s.targetIndex < length
    · simp only [hlt, if_true]
      rw [e]
      exact ih _ h2 h3
    · simp only [hlt, if_false]

/-- For `2 * f * n + 48000 < 2^31` the function `sound_Resample` with its 32-bit locals is the
function over the integers. -/
theorem sound_Resample32_eq (f n : Nat) (hfit : resampleMax f n + 48000 < 2 ^ 31)
    (source target : Nat → Nat) (length fuel : Nat) :
    sound_Resample32 f n source target length fuel =
      sound_Resample f n source target length fuel := by
  have h0 : 0 ≤ resampleMax f n := by
    unfold resampleMax
    exact Int.ofNat_nonneg _
  have hlt : resampleMax f n < 2 ^ 31 := by
    norm_num at hfit ⊢
    omega
  unfold sound_Resample32 sound_Resample
  rw [resampleMax32_eq f n hlt]
  exact resampleLoop32_eq _ h0 hfit source length fuel (resampleInit target)
    (by simp [resampleInit, SOUND_FREQUENCY]) (by simp [resampleInit, SOUND_FREQUENCY]; omega)

/-- At `max = 2^31 - 2` the accumulator, a multiple of `128` in the `int` range, is below `max`,
and the wrapped sum `measurement + 48000` is again such a multiple: the body advances
`sourceIndex` and emits nothing. -/
theorem resampleStep32_stuck (source : Nat → Nat) (s : ResampleState)
    (hmod : s.measurement % 128 = 0) (hlo : -2147483648 ≤ s.measurement)
    (hhi : s.measurement < 2147483648) :
    (resampleStep32 2147483646 source s).measurement % 128 = 0 ∧
    -2147483648 ≤ (resampleStep32 2147483646 source s).measurement ∧
    (resampleStep32 2147483646 source s).measurement < 2147483648 ∧
    (resampleStep32 2147483646 source s).targetIndex = s.targetIndex ∧
    (resampleStep32 2147483646 source s).sourceIndex = s.sourceIndex + 1 ∧
    (resampleStep32 2147483646 source s).target = s.target := by
  have hge : ¬ s.measurement ≥ 2147483646 := by omega
  simp only [resampleStep32, hge, if_false, SOUND_FREQUENCY, wrapInt32]
  push_cast
  refine ⟨by omega, by omega, by omega, ?_, ?_, ?_⟩ <;> trivial

/-- At `max = 2^31 - 2` and `length = 1` the 32-bit loop never returns. -/
theorem resampleLoop32_diverges (source : Nat → Nat) :
    ∀ (fuel : Nat) (s : ResampleState), s.targetIndex = 0 → s.measurement % 128 = 0 →
      -2147483648 ≤ s.measurement → s.measurement < 2147483648 →
      resampleLoop32 2147483646 source 1 fuel s = none := by
  intro fuel
  induction fuel with
  | zero =>
    intro s _ _ _ _
    rfl
  | succ fuel ih =>
    intro s hti hmod hlo hhi
    obtain ⟨h1, h2, h3, h4, _, _⟩ := resampleStep32_stuck source s hmod hlo hhi
    have hlt : s.targetIndex < 1 := by omega
    simp only [resampleLoop32, hlt, if_true]
    exact ih _ (by rw [h4]; exact hti) h1 h2 h3

/-- At `max = 2^31 - 2` and `length = 1` every loop head of the 32-bit loop has one more
`sourceIndex` than the one before, with `target` untouched. -/
theorem resampleAt32_advances (source : Nat → Nat) :
    ∀ (j : Nat) (s : ResampleState), s.targetIndex = 0 → s.measurement % 128 = 0 →
      -2147483648 ≤ s.measurement → s.measurement < 2147483648 →
      (resampleAt32 2147483646 source 1 j s).sourceIndex = s.sourceIndex + j ∧
      (resampleAt32 2147483646 source 1 j s).target = s.target := by
  intro j
  induction j with
  | zero =>
    intro s _ _ _ _
    exact ⟨rfl, rfl⟩
  | succ j ih =>
    intro s hti hmod hlo hhi
    obtain ⟨h1, h2, h3, h4, h5, h6⟩ := resampleStep32_stuck source s hmod hlo hhi
    have hlt : s.targetIndex < 1 := by omega
    simp only [resampleAt32, hlt, if_true]
    obtain ⟨e1, e2⟩ := ih _ (by rw [h4]; exact hti) h1 h2 h3
    rw [e1, e2, h5, h6]
    exact ⟨by omega, rfl⟩

/-- The rate computed from `prosystem_frequency = 32767` and `prosystem_scanlines = 32769` is
`2^31 - 2`, an `int` value. -/
theorem resampleMax32_large : resampleMax32 32767 32769 = 2147483646 := by
  decide


/-! ## Resampler: the contract on the 32-bit accumulator -/

/-- C4, as stated, fails: `prosystem_frequency = 32767` and `prosystem_scanlines = 32769` give
the `int` rate `max = 2^31 - 2 ≥ SOUND_FREQUENCY`, at which `measurement += SOUND_FREQUENCY`
passes `INT_MAX` before `measurement` reaches `max`; with the accumulator wrapping, the call with
`length = 1` never returns, so it produces no output sample. -/
theorem sound_Resample32_never_returns :
    (SOUND_FREQUENCY : Int) ≤ resampleMax32 32767 32769 ∧
    resampleMax32 32767 32769 < 2 ^ 31 ∧
    ∀ fuel, sound_Resample32 32767 32769 (fun i => i % 256) (fun _ => 0) 1 fuel = none := by
  refine ⟨by rw [resampleMax32_large]; decide, by rw [resampleMax32_large]; norm_num, ?_⟩
  intro fuel
  unfold sound_Resample32
  rw [resampleMax32_large]
  exact resampleLoop32_diverges _ fuel (resampleInit _) rfl (by decide) (by decide) (by decide)

/-- C4, amended: for every source rate `max = (prosystem_frequency * prosystem_scanlines) << 1`
with `SOUND_FREQUENCY ≤ max` and `max + SOUND_FREQUENCY < 2^31` (the accumulator stays in the
`int` range) and every `length`, `sound_Resample` returns, and it has then produced exactly
`length` output samples: the positions written are `0, 1, ..., length - 1`, once each and in
increasing order, and every cell at a position `≥ length` is as it was before the call. -/
theorem sound_Resample32_output_length (f n : Nat) (source target : Nat → Nat) (length : Nat)
    (hmax : (SOUND_FREQUENCY : Int) ≤ resampleMax f n)
    (hfit : resampleMax f n + 48000 < 2 ^ 31) :
    ∃ fuel r,
      (∀ fuel', fuel ≤ fuel' → sound_Resample32 f n source target length fuel' = some r) ∧
      r.targetIndex = length ∧ r.writes = List.range length ∧
      (∀ k, length ≤ k → r.target k = target k) := by
  obtain ⟨fuel, r, hr, h⟩ := sound_Resample_output_length f n source target length hmax
  refine ⟨fuel, r, ?_, h⟩
  intro fuel' hle
  rw [sound_Resample32_eq f n hfit]
  exact hr fuel' hle

/-- C4, amended, at the rate of `f = 60`, `n = 400` (`max = 48000`) and `length = 800`. -/
theorem sound_Resample32_output_length_witness :
    (SOUND_FREQUENCY : Int) ≤ resampleMax 60 400 ∧ resampleMax 60 400 + 48000 < 2 ^ 31 ∧
    ∃ fuel r,
      (∀ fuel', fuel ≤ fuel' →
        sound_Resample32 60 400 (fun i => i % 256) (fun _ => 0) 800 fuel' = some r) ∧
      r.targetIndex = 800 ∧ r.writes = List.range 800 ∧
      (∀ k, 800 ≤ k → r.target k = (fun _ => 0) k) :=
  ⟨by decide, by decide,
    sound_Resample32_output_length 60 400 (fun i => i % 256) (fun _ => 0) 800 (by decide)
      (by decide)⟩

/-- C5, as stated, fails: for `f = 32767 > 0` and `n = 32769 > 0` the call of `game_step` has
`length = 48000 / 32767 = 1` and `max = 2^31 - 2`; with the accumulator wrapping it never
returns, and `sourceIndex` is `65538 > 2 * n - 1` at its loop head number `65538`. -/
theorem sound_Resample32_leaves_frame :
    0 < 32767 ∧ 0 < 32769 ∧
    (∀ fuel, sound_Resample32 32767 32769 (fun i => i % 256) (fun _ => 0)
      (SOUND_FREQUENCY / 32767) fuel = none) ∧
    (resampleAt32 (resampleMax32 32767 32769) (fun i => i % 256) (SOUND_FREQUENCY / 32767) 65538
      (resampleInit (fun _ => 0))).sourceIndex = 65538 ∧
    ¬ (65538 ≤ 2 * 32769 - 1) := by
  have hlen : SOUND_FREQUENCY / 32767 = 1 := by decide
  refine ⟨by decide, by decide, ?_, ?_, by decide⟩
  · intro fuel
    unfold sound_Resample32
    rw [resampleMax32_large, hlen]
    exact resampleLoop32_diverges _ fuel (resampleInit _) rfl (by decide) (by decide) (by decide)
  · rw [resampleMax32_large, hlen]
    have h := (resampleAt32_advances (fun i => i % 256) 65538 (resampleInit (fun _ => 0)) rfl
      (by decide) (by decide) (by decide)).1
    rw [h]
    rfl

/-- C5, amended: for every chip frequency `f > 0` and scanline count `n > 0` with
`2 * f * n + SOUND_FREQUENCY < 2^31`, the call `sound_Resample(source, target,
SOUND_FREQUENCY / f)` of `game_step` returns, every source index it has read is at most
`2 * n - 1`, and so is the final value of `sourceIndex`. -/
theorem sound_Resample32_within_frame (f n : Nat) (hf : 0 < f) (hn : 0 < n)
    (hfit : resampleMax f n + 48000 < 2 ^ 31) (source target : Nat → Nat) :
    ∃ fuel r,
      (∀ fuel', fuel ≤ fuel' →
        sound_Resample32 f n source target (SOUND_FREQUENCY / f) fuel' = some r) ∧
      (∀ i ∈ r.reads, i ≤ 2 * n - 1) ∧ r.sourceIndex ≤ 2 * n - 1 := by
  obtain ⟨fuel, r, hr, h⟩ := sound_Resample_within_frame f n hf hn source target
  refine ⟨fuel, r, ?_, h⟩
  intro fuel' hle
  rw [sound_Resample32_eq f n hfit]
  exact hr fuel' hle

/-- C5, amended, at the NTSC timing `f = 60`, `n = 262`. -/
theorem sound_Resample32_within_frame_witness :
    0 < 60 ∧ 0 < 262 ∧ resampleMax 60 262 + 48000 < 2 ^ 31 ∧
    ∃ fuel r,
      (∀ fuel', fuel ≤ fuel' →
        sound_Resample32 60 262 (fun i => i % 256) (fun _ => 0) (SOUND_FREQUENCY / 60) fuel'
          = some r) ∧
      (∀ i ∈ r.reads, i ≤ 2 * 262 - 1) ∧ r.sourceIndex ≤ 2 * 262 - 1 :=
  ⟨by decide, by decide, by decide,
    sound_Resample32_within_frame 60 262 (by decide) (by decide) (by decide) (fun i => i % 256)
      (fun _ => 0)⟩

/-- C6, as stated, fails: at the `int` rate `max = 2^31 - 2` (`prosystem_frequency = 32767`,
`prosystem_scanlines = 32769`) with a source of constant `7`, a zeroed `target` and
`length = 1`, the call never returns with the accumulator wrapping, and `target[0]` is `0`, not
`7`, at every loop head. -/
theorem sound_Resample32_constant_not_copied :
    (∀ fuel, sound_Resample32 32767 32769 (fun _ => 7) (fun _ => 0) 1 fuel = none) ∧
    (∀ j, (resampleAt32 (resampleMax32 32767 32769) (fun _ => 7) 1 j
      (resampleInit (fun _ => 0))).target 0 = 0) := by
  constructor
  · intro fuel
    unfold sound_Resample32
    rw [resampleMax32_large]
    exact resampleLoop32_diverges _ fuel (resampleInit _) rfl (by decide) (by decide) (by decide)
  · intro j
    rw [resampleMax32_large]
    have h := (resampleAt32_advances (fun _ => 7) j (resampleInit (fun _ => 0)) rfl
      (by decide) (by decide) (by decide)).2
    rw [h]
    rfl

/-- C6, amended: for every value `v`, every rate `max = (prosystem_frequency *
prosystem_scanlines) << 1` with `max + SOUND_FREQUENCY < 2^31` and every `length`: if every
source sample that `sound_Resample` reads equals `v`, then the call returns and afterwards
`target[k] = v` for every `k < length`. -/
theorem sound_Resample32_constant (f n v : Nat) (source target : Nat → Nat) (length : Nat)
    (hfit : resampleMax f n + 48000 < 2 ^ 31)
    (hsrc : ∀ fuel r, sound_Resample32 f n source target length fuel = some r →
      ∀ i ∈ r.reads, source i = v) :
    ∃ fuel r,
      (∀ fuel', fuel ≤ fuel' → sound_Resample32 f n source target length fuel' = some r) ∧
      ∀ k, k < length → r.target k = v := by
  obtain ⟨fuel, r, hr, h⟩ := sound_Resample_constant f n v source target length (by
    intro fuel r hrun
    rw [← sound_Resample32_eq f n hfit] at hrun
    exact hsrc fuel r hrun)
  refine ⟨fuel, r, ?_, h⟩
  intro fuel' hle
  rw [sound_Resample32_eq f n hfit]
  exact hr fuel' hle

/-- C6, amended, at the NTSC timing with a source stream of constant value `200` and
`length = 800`. -/
theorem sound_Resample32_constant_witness :
    resampleMax 60 262 + 48000 < 2 ^ 31 ∧
    ∃ fuel r,
      (∀ fuel', fuel ≤ fuel' →
        sound_Resample32 60 262 (fun _ => 200) (fun _ => 0) 800 fuel' = some r) ∧
      ∀ k, k < 800 → r.target k = 200 :=
  ⟨by decide,
    sound_Resample32_constant 60 262 200 (fun _ => 200) (fun _ => 0) 800 (by decide)
      (fun _ _ _ _ _ => rfl)⟩

end ProSystemGo2
